import Mathlib

/-!
# Docker logging plugin: the protocol handlers of `http.go`

A shallow embedding of the four endpoint handlers registered by `handlers`
in `http.go`, together with the library calls they make on the response
writer (`http.Error`, `json.Encoder.Encode`, `ioutils.WriteFlusher`,
`io.Copy`).  Effects are made explicit: every handler is a function on a
`World` that carries the driver state, the response writer and a
chronological trace of the calls made on the driver, the backend stream and
the response writer.
-/

namespace LogPlugin

/-! ## Data model -/

/-- A Go byte slice. -/
abbrev Bytes := List UInt8

/-- A Go `error`: `none` is `nil`, `some msg` is an error whose `Error()` text is `msg`. -/
abbrev GoError := Option String

/-- The bytes of a Go string (UTF-8 text). -/
def textBytes (s : String) : Bytes :=
  s.data.flatMap String.utf8EncodeChar

/-- The docker type `logger.Info` (declared outside this repository).  `http.go` reads
only `ContainerID`; the remaining fields are carried along untouched in `Rest`. -/
structure Info where
  ContainerID : String
  Rest : List (String × String)
deriving DecidableEq, Repr

/-- The docker type `logger.ReadConfig` (declared outside this repository); `http.go`
passes it through to the driver without looking at it. -/
structure ReadConfig where
  Since : Int
  Tail : Int
  Follow : Bool
deriving DecidableEq, Repr

/-- The docker type `logger.Capability`. -/
structure Capability where
  ReadLogs : Bool
deriving DecidableEq, Repr

/-- `type StartLoggingRequest struct { File string; Info logger.Info }` -/
structure StartLoggingRequest where
  File : String
  Info : Info
deriving DecidableEq, Repr

/-- `type StopLoggingRequest struct { File string }` -/
structure StopLoggingRequest where
  File : String
deriving DecidableEq, Repr

/-- `type CapabilitiesResponse struct { Err string; Cap logger.Capability }` -/
structure CapabilitiesResponse where
  Err : String
  Cap : Capability
deriving DecidableEq, Repr

/-- `type ReadLogsRequest struct { Info logger.Info; Config logger.ReadConfig }` -/
structure ReadLogsRequest where
  Info : Info
  Config : ReadConfig
deriving DecidableEq, Repr

/-- `type response struct { Err string }` -/
structure response where
  Err : String
deriving DecidableEq, Repr

/-- The error half of the result of `Read` on the backend stream: `io.EOF` or another error. -/
inductive ReadErr where
  | eof
  | other (msg : String)
deriving DecidableEq, Repr

/-- The result of one `Read(buf)` call on the backend stream: the bytes delivered and the
error returned with them (`none` is `nil`). -/
structure ReadOutcome where
  data : Bytes
  err : Option ReadErr
deriving DecidableEq, Repr

/-- The `io.ReadCloser` returned by `d.ReadLogs`, given by the results of its successive
`Read` calls.  A `Read` past the end of the script returns `(0, io.EOF)`.  A stream that
never ends (the handler then never returns) has no script and is not represented. -/
abbrev Stream := List ReadOutcome

/-- One call observed during an exchange. -/
inductive Event where
  | startLogging (file : String) (info : Info)
  | stopLogging (file : String)
  | readLogs (info : Info) (config : ReadConfig)
  | streamRead (data : Bytes) (err : Option ReadErr)
  | streamClose
  | setHeader (key value : String)
  | writeHeader (code : Nat)
  | write (p : Bytes) (n : Nat) (err : GoError)
  | flush
  | encodeResponse (res : response)
  | encodeCapabilities (res : CapabilitiesResponse)
deriving DecidableEq, Repr

/-- Whether an event is a call of a driver method. -/
def Event.isDriverCall : Event → Bool
  | .startLogging _ _ => true
  | .stopLogging _ => true
  | .readLogs _ _ => true
  | _ => false

/-- Whether an event touches the backend stream. -/
def Event.isStream : Event → Bool
  | .streamRead _ _ => true
  | .streamClose => true
  | _ => false

/-- Whether an event is a `Read` on the backend stream. -/
def Event.isStreamRead : Event → Bool
  | .streamRead _ _ => true
  | _ => false

/-- Whether an event is a `Write` on the response writer. -/
def Event.isWrite : Event → Bool
  | .write _ _ _ => true
  | _ => false

/-- Whether an event is the JSON encoding of a structured envelope. -/
def Event.isEncode : Event → Bool
  | .encodeResponse _ => true
  | .encodeCapabilities _ => true
  | _ => false

/-- Whether an event is a `Write` that did not go through: it returned an error, or a
count other than the length of the chunk. -/
def Event.isFailedWrite : Event → Bool
  | .write p n err => err.isSome || n != p.length
  | _ => false

/-! ## The response writer (`net/http`) -/

/-- The `http.ResponseWriter` of one exchange.  `header` is the live map `w.Header()`;
`status` is the status line once it has been written and `sent` the headers frozen with
it; `conn` scripts the coming `Write` calls: `none` accepts the whole chunk,
`some (n, err)` makes the call return `(n, err)` after taking `n` bytes, and once the
script is used up every `Write` is accepted. -/
structure ResponseWriter where
  header : List (String × String)
  status : Option Nat
  sent : List (String × String)
  body : Bytes
  conn : List (Option (Nat × GoError))
deriving DecidableEq, Repr

/-- A fresh response writer on a connection. -/
def ResponseWriter.new (conn : List (Option (Nat × GoError))) : ResponseWriter :=
  ⟨[], none, [], [], conn⟩

/-- `w.Header().Set(key, value)` -/
def ResponseWriter.Set (key value : String) (w : ResponseWriter) : ResponseWriter :=
  { w with header := (key, value) :: w.header.filter (fun p => p.1 != key) }

/-- `w.WriteHeader(code)`: the first call fixes the status line and the headers; later
calls change nothing. -/
def ResponseWriter.WriteHeader (code : Nat) (w : ResponseWriter) : ResponseWriter :=
  match w.status with
  | some _ => w
  | none => { w with status := some code, sent := w.header }

/-- `w.Write(p)`: writes the header with status 200 if none was written yet, then hands
the chunk to the connection. -/
def ResponseWriter.Write (p : Bytes) (w : ResponseWriter) : (Nat × GoError) × ResponseWriter :=
  let w1 := w.WriteHeader 200
  match w1.conn with
  | [] => ((p.length, none), { w1 with body := w1.body ++ p })
  | none :: rest => ((p.length, none), { w1 with body := w1.body ++ p, conn := rest })
  | some (n, err) :: rest => ((n, err), { w1 with body := w1.body ++ p.take n, conn := rest })

/-- `w.Flush()` of `http.Flusher`: sends the header (status 200) if not yet sent. -/
def ResponseWriter.Flush (w : ResponseWriter) : ResponseWriter :=
  w.WriteHeader 200

/-- The server finishing the response after the handler returned: a handler that never
wrote gets status 200. -/
def ResponseWriter.finishRequest (w : ResponseWriter) : ResponseWriter :=
  w.WriteHeader 200

/-! ## The world of one exchange -/

/-- The state threaded through a handler: the driver state, the response writer, and the
trace of calls made so far, oldest first. -/
structure World (σ : Type) where
  drv : σ
  w : ResponseWriter
  trace : List Event

/-- The world at the start of an exchange. -/
def World.init {σ : Type} (drv : σ) (conn : List (Option (Nat × GoError))) : World σ :=
  ⟨drv, ResponseWriter.new conn, []⟩

/-- Record a call in the trace. -/
def World.emit {σ : Type} (e : Event) (s : World σ) : World σ :=
  { s with trace := s.trace ++ [e] }

/-- `w.Header().Set(key, value)` in a handler. -/
def setHeader {σ : Type} (key value : String) (s : World σ) : World σ :=
  { s with w := s.w.Set key value, trace := s.trace ++ [Event.setHeader key value] }

/-- `w.WriteHeader(code)` in a handler. -/
def writeHeader {σ : Type} (code : Nat) (s : World σ) : World σ :=
  { s with w := s.w.WriteHeader code, trace := s.trace ++ [Event.writeHeader code] }

/-- `w.Write(p)` in a handler; the trace keeps the chunk and what the call returned. -/
def write {σ : Type} (p : Bytes) (s : World σ) : (Nat × GoError) × World σ :=
  let r := s.w.Write p
  (r.1, { s with w := r.2, trace := s.trace ++ [Event.write p r.1.1 r.1.2] })

/-- `w.Flush()` in a handler. -/
def flush {σ : Type} (s : World σ) : World σ :=
  { s with w := s.w.Flush, trace := s.trace ++ [Event.flush] }

/-- `http.Error(w, msg, code)`: sets the plain-text headers, writes the status line and
prints the message followed by a newline. -/
def httpError {σ : Type} (msg : String) (code : Nat) (s : World σ) : World σ :=
  let s1 := setHeader "Content-Type" "text/plain; charset=utf-8" s
  let s2 := setHeader "X-Content-Type-Options" "nosniff" s1
  let s3 := writeHeader code s2
  (write (textBytes msg ++ [10]) s3).2

/-- The JSON library (`encoding/json`), outside this repository: how a request body
decodes into each request type (or fails with an error text) and how each response
envelope is rendered (`Encode` output, newline included). -/
structure Json where
  decodeStart : Bytes → Except String StartLoggingRequest
  decodeStop : Bytes → Except String StopLoggingRequest
  decodeRead : Bytes → Except String ReadLogsRequest
  encodeResponse : response → Bytes
  encodeCapabilities : CapabilitiesResponse → Bytes

/-- The methods of `*driver` that `http.go` calls (the driver itself is not part of
`http.go`); each acts on a driver state `σ`. -/
structure Driver (σ : Type) where
  StartLogging : String → Info → σ → GoError × σ
  StopLogging : String → σ → GoError × σ
  ReadLogs : Info → ReadConfig → σ → Except String Stream × σ

/-! ## `ioutils.WriteFlusher` and `io.Copy` -/

/-- `(*WriteFlusher).Write`: `n, err = wf.w.Write(b); wf.Flush(); return n, err`.  The
flusher is never closed by the handler, so the closed-channel guards do not fire. -/
def WriteFlusher.Write {σ : Type} (b : Bytes) (s : World σ) : (Nat × GoError) × World σ :=
  let r := write b s
  (r.1, flush r.2)

/-- The text of `io.errInvalidWrite`. -/
def errInvalidWrite : String := "invalid write result"

/-- The text of `io.ErrShortWrite`. -/
def ErrShortWrite : String := "short write"

/-- The generic loop of `io.Copy(wf, stream)` (neither side offers `WriteTo` or
`ReadFrom`), returning `(written, err)`:
read a chunk; if it is non-empty write it, stopping on a write error or a short write;
stop on a read error, which is reported unless it is `io.EOF`.  Counts are natural numbers,
so of the guard `nw < 0 || nr < nw` only `nr < nw` can fire. -/
def copyLoop {σ : Type} : Stream → Nat → World σ → (Nat × GoError) × World σ
  | [], written, s => ((written, none), s.emit (Event.streamRead [] (some ReadErr.eof)))
  | o :: rest, written, s =>
    let s1 := s.emit (Event.streamRead o.data o.err)
    let nr := o.data.length
    if 0 < nr then
      let r := WriteFlusher.Write o.data s1
      let nw := if nr < r.1.1 then 0 else r.1.1
      let ew : GoError := if nr < r.1.1 then (if r.1.2 = none then some errInvalidWrite else r.1.2) else r.1.2
      let written1 := written + nw
      match ew with
      | some e => ((written1, some e), r.2)
      | none =>
        if nr ≠ nw then ((written1, some ErrShortWrite), r.2)
        else
          match o.err with
          | some ReadErr.eof => ((written1, none), r.2)
          | some (ReadErr.other e) => ((written1, some e), r.2)
          | none => copyLoop rest written1 r.2
    else
      match o.err with
      | some ReadErr.eof => ((written, none), s1)
      | some (ReadErr.other e) => ((written, some e), s1)
      | none => copyLoop rest written s1

/-- `io.Copy(wf, stream)` -/
def ioCopy {σ : Type} (stream : Stream) (s : World σ) : (Nat × GoError) × World σ :=
  copyLoop stream 0 s

/-! ## `http.go` -/

/-- `json.NewEncoder(w).Encode(&res)` for a `response`. -/
def encodeResponse {σ : Type} (J : Json) (res : response) (s : World σ) : World σ :=
  (write (J.encodeResponse res) (s.emit (Event.encodeResponse res))).2

/-- `json.NewEncoder(w).Encode(&res)` for a `CapabilitiesResponse`. -/
def encodeCapabilities {σ : Type} (J : Json) (res : CapabilitiesResponse) (s : World σ) : World σ :=
  (write (J.encodeCapabilities res) (s.emit (Event.encodeCapabilities res))).2

/-- `func respond(err error, w http.ResponseWriter)` -/
def respond {σ : Type} (J : Json) (err : GoError) (s : World σ) : World σ :=
  let res : response :=
    match err with
    | some e => ⟨e⟩
    | none => ⟨""⟩
  encodeResponse J res s

/-- The handler of `/LogDriver.StartLogging`. -/
def StartLoggingHandler {σ : Type} (J : Json) (d : Driver σ) (body : Bytes) (s : World σ) : World σ :=
  match J.decodeStart body with
  | .error err => httpError err 400 s
  | .ok req =>
    if req.Info.ContainerID = "" then
      respond J (some "must provide container id in log context") s
    else
      let r := d.StartLogging req.File req.Info s.drv
      respond J r.1 ({ s with drv := r.2 }.emit (Event.startLogging req.File req.Info))

/-- The handler of `/LogDriver.StopLogging`. -/
def StopLoggingHandler {σ : Type} (J : Json) (d : Driver σ) (body : Bytes) (s : World σ) : World σ :=
  match J.decodeStop body with
  | .error err => httpError err 400 s
  | .ok req =>
    let r := d.StopLogging req.File s.drv
    respond J r.1 ({ s with drv := r.2 }.emit (Event.stopLogging req.File))

/-- The handler of `/LogDriver.Capabilities`; it neither reads the body nor uses the driver. -/
def CapabilitiesHandler {σ : Type} (J : Json) (_d : Driver σ) (_body : Bytes) (s : World σ) : World σ :=
  encodeCapabilities J ⟨"", ⟨true⟩⟩ s

/-- The handler of `/LogDriver.ReadLogs`; the deferred `stream.Close()` runs last. -/
def ReadLogsHandler {σ : Type} (J : Json) (d : Driver σ) (body : Bytes) (s : World σ) : World σ :=
  match J.decodeRead body with
  | .error err => httpError err 400 s
  | .ok req =>
    let r := d.ReadLogs req.Info req.Config s.drv
    let s1 := { s with drv := r.2 }.emit (Event.readLogs req.Info req.Config)
    match r.1 with
    | .error err => httpError err 500 s1
    | .ok stream =>
      let s2 := setHeader "Content-Type" "application/x-json-stream" s1
      let s3 := (ioCopy stream s2).2
      s3.emit Event.streamClose

/-- One exchange served on a fresh response writer: the handler runs, then the server
finishes the response. -/
def serve {σ : Type} (h : World σ → World σ) (drv : σ) (conn : List (Option (Nat × GoError))) : World σ :=
  let s := h (World.init drv conn)
  { s with w := s.w.finishRequest }

/-! ## Vocabulary for stating the claims -/

/-- The byte sequence the backend stream produces up to its end: the data of its reads up
to and including the first read that returns an error (`io.EOF` or another). -/
def Stream.produced : Stream → Bytes
  | [] => []
  | o :: rest =>
    match o.err with
    | some _ => o.data
    | none => o.data ++ Stream.produced rest

/-- The events of one run of the copy loop: rounds `read` or `read, write, flush`; a round
is followed by another only after an error-free read whose chunk, if any, was written in
full without error. -/
inductive LoopShape : List Event → Prop where
  | stop_read (d : Bytes) (e : Option ReadErr) : LoopShape [Event.streamRead d e]
  | stop_write (d : Bytes) (e : Option ReadErr) (n : Nat) (err : GoError) :
      LoopShape [Event.streamRead d e, Event.write d n err, Event.flush]
  | step_empty (d : Bytes) (tail : List Event) :
      LoopShape tail → LoopShape (Event.streamRead d none :: tail)
  | step_write (d : Bytes) (tail : List Event) :
      LoopShape tail →
      LoopShape (Event.streamRead d none :: Event.write d d.length none :: Event.flush :: tail)

/-- Every event of the list, together with the events after it, satisfies `P`. -/
def Chain (P : Event → List Event → Prop) : List Event → Prop
  | [] => True
  | e :: rest => P e rest ∧ Chain P rest

/-- The outcome of a request that `http.Error` answered with `code` and `msg` right after
the events `pre`: the status line carries `code`, the headers sent are the plain-text ones,
the only write is the message and a newline, and nothing is encoded, flushed or streamed. -/
def AnsweredByHttpError {σ : Type} (pre : List Event) (code : Nat) (msg : String)
    (conn : List (Option (Nat × GoError))) (s : World σ) : Prop :=
  s.w.status = some code ∧
  s.w.sent.lookup "Content-Type" = some "text/plain; charset=utf-8" ∧
  (∃ n err, s.trace = pre ++
    [Event.setHeader "Content-Type" "text/plain; charset=utf-8",
     Event.setHeader "X-Content-Type-Options" "nosniff",
     Event.writeHeader code,
     Event.write (textBytes msg ++ [10]) n err]) ∧
  (conn.headD none = none → s.w.body = textBytes msg ++ [10])

/-! ## Sample instances, used to evaluate the handlers on concrete inputs -/

/-- A sample JSON library: the empty body does not decode; otherwise the first byte picks
the container id (byte 0 gives the empty id). -/
def sampleJson : Json where
  decodeStart b :=
    match b with
    | [] => .error "EOF"
    | x :: _ => .ok ⟨"fifo1", ⟨if x = 0 then "" else "c1", []⟩⟩
  decodeStop b :=
    match b with
    | [] => .error "EOF"
    | _ :: _ => .ok ⟨"fifo1"⟩
  decodeRead b :=
    match b with
    | [] => .error "EOF"
    | x :: _ => .ok ⟨⟨if x = 0 then "" else "c1", []⟩, ⟨0, 0, false⟩⟩
  encodeResponse r := textBytes r.Err ++ [10]
  encodeCapabilities r := textBytes r.Err ++ [if r.Cap.ReadLogs then 1 else 0, 10]

/-- A sample driver whose state counts the calls made on it: starting always works,
stopping reports "no such logger", and reading logs of container "c1" yields a two-chunk
stream while any other container is unknown. -/
def sampleDriver : Driver Nat where
  StartLogging _ _ k := (none, k + 1)
  StopLogging _ k := (some "no such logger", k + 1)
  ReadLogs info _ k :=
    if info.ContainerID = "c1" then
      (.ok [⟨[1, 10], none⟩, ⟨[2, 10], some ReadErr.eof⟩], k + 1)
    else (.error "unknown container", k + 1)

/-! ## The driver: session registry over a backend

`http.go` only calls the driver; the driver itself (`newDriver`, `*driver`) is not among
the sources, so it is modelled from the specification (sections 3 and 4.1). -/

/-- Modelled from the spec: the `Session` of section 3, the live binding of a session key,
a log context and a backend handle (the driver source is missing). -/
structure Session where
  key : String
  context : Info
  handle : Nat
deriving DecidableEq, Repr

/-- Modelled from the spec: the Backend Interface of section 2 (the driver source is
missing): begin a capture for a context, stop a capture, produce a readable stream; each
call may fail with an error text and acts on a backend state `β`. -/
structure Backend (β : Type) where
  start : Info → β → Except String Nat × β
  stop : Nat → β → GoError × β
  read : Info → ReadConfig → β → Except String Stream × β

/-- Modelled from the spec: the two session-state failures of sections 4.1 and 7 (the
driver source is missing). -/
inductive SessionStateError where
  | AlreadyActive (key : String)
  | NotFound (key : String)
deriving DecidableEq, Repr

/-- Modelled from the spec: the stringified failure reason of a session-state failure (the
driver source is missing).  Sections 4.2 and 6 make the empty error string the success
sentinel and answer a failure with its stringified reason, so the text of a failure is
never the empty string. -/
structure FailureText where
  render : SessionStateError → String
  nonempty : ∀ e, render e ≠ ""

/-- Modelled from the spec: the state of the Session Registry (the driver source is
missing): the sessions, newest first, and the state of the backend. -/
structure RegistryState (β : Type) where
  sessions : List Session
  backend : β

/-- Modelled from the spec: `Get(key)` of section 4.1 (the driver source is missing), the
read-only lookup of the session bound to a key. -/
def Registry.Get (key : String) (sessions : List Session) : Option Session :=
  sessions.find? (fun x => x.key == key)

/-- Modelled from the spec: `Start(key, context)` of section 4.1 (the driver source is
missing).  It fails with AlreadyActive if the key is already bound; otherwise it asks the
backend to begin capture and installs the session only on backend success, passing a
backend failure on with its text. -/
def Registry.Start {β : Type} (B : Backend β) (T : FailureText)
    (key : String) (context : Info) (st : RegistryState β) : GoError × RegistryState β :=
  match Registry.Get key st.sessions with
  | some _ => (some (T.render (SessionStateError.AlreadyActive key)), st)
  | none =>
    match B.start context st.backend with
    | (.error e, b) => (some e, ⟨st.sessions, b⟩)
    | (.ok h, b) => (none, ⟨⟨key, context, h⟩ :: st.sessions, b⟩)

/-- Modelled from the spec: `Stop(key)` of section 4.1 (the driver source is missing).  It
fails with NotFound if the key is unbound; otherwise it asks the backend to stop and removes
the session whether or not the backend confirms, passing a backend failure on. -/
def Registry.Stop {β : Type} (B : Backend β) (T : FailureText)
    (key : String) (st : RegistryState β) : GoError × RegistryState β :=
  match Registry.Get key st.sessions with
  | none => (some (T.render (SessionStateError.NotFound key)), st)
  | some x =>
    ((B.stop x.handle st.backend).1,
     ⟨st.sessions.filter (fun y => y.key != key), (B.stop x.handle st.backend).2⟩)

/-- Modelled from the spec: the driver handed to `handlers` (its source is missing):
StartLogging and StopLogging delegate to the registry, ReadLogs opens a backend stream for
the context and read configuration. -/
def registryDriver {β : Type} (B : Backend β) (T : FailureText) :
    Driver (RegistryState β) where
  StartLogging := Registry.Start B T
  StopLogging := Registry.Stop B T
  ReadLogs info config st :=
    ((B.read info config st.backend).1, ⟨st.sessions, (B.read info config st.backend).2⟩)

/-- A call on the driver. -/
inductive DriverOp where
  | start (file : String) (info : Info)
  | stop (file : String)
  | read (info : Info) (config : ReadConfig)
deriving DecidableEq, Repr

/-- The driver state after one call. -/
def Driver.step {σ : Type} (D : Driver σ) (op : DriverOp) (st : σ) : σ :=
  match op with
  | .start file info => (D.StartLogging file info st).2
  | .stop file => (D.StopLogging file st).2
  | .read info config => (D.ReadLogs info config st).2

/-- The driver state after a sequence of calls, first call first. -/
def Driver.run {σ : Type} (D : Driver σ) (ops : List DriverOp) (st : σ) : σ :=
  ops.foldl (fun acc op => D.step op acc) st

/-- The keys bound in a registry state. -/
def RegistryState.keys {β : Type} (st : RegistryState β) : List String :=
  st.sessions.map Session.key

/-- The `Err` field of the envelope encoded during an exchange, if one was. -/
def World.respErr {σ : Type} (s : World σ) : Option String :=
  s.trace.findSome? fun e =>
    match e with
    | .encodeResponse r => some r.Err
    | _ => none

/-- A sample stringification of the session-state failures: the name of the reason. -/
def sampleText : FailureText where
  render e :=
    match e with
    | .AlreadyActive _ => "AlreadyActive"
    | .NotFound _ => "NotFound"
  nonempty e := by
    cases e with
    | AlreadyActive _ => exact (by decide : "AlreadyActive" ≠ "")
    | NotFound _ => exact (by decide : "NotFound" ≠ "")

/-- A sample backend that is down: every start fails. -/
def downBackend : Backend Unit where
  start _ b := (.error "backend down", b)
  stop _ b := (none, b)
  read _ _ b := (.error "backend down", b)

/-- A sample backend that works; its state counts the handles given out. -/
def countingBackend : Backend Nat where
  start _ n := (.ok n, n + 1)
  stop _ n := (none, n)
  read _ _ n := (.ok [], n)

/-! ## Basic facts about the response writer -/

theorem ResponseWriter.WriteHeader_header (code : Nat) (w : ResponseWriter) :
    (w.WriteHeader code).header = w.header := by
  unfold ResponseWriter.WriteHeader; cases w.status <;> rfl

theorem ResponseWriter.WriteHeader_body (code : Nat) (w : ResponseWriter) :
    (w.WriteHeader code).body = w.body := by
  unfold ResponseWriter.WriteHeader; cases w.status <;> rfl

theorem ResponseWriter.WriteHeader_conn (code : Nat) (w : ResponseWriter) :
    (w.WriteHeader code).conn = w.conn := by
  unfold ResponseWriter.WriteHeader; cases w.status <;> rfl

theorem ResponseWriter.WriteHeader_status (code : Nat) (w : ResponseWriter) :
    (w.WriteHeader code).status = some (w.status.getD code) := by
  unfold ResponseWriter.WriteHeader
  cases h : w.status <;> simp [h]

theorem ResponseWriter.WriteHeader_sent (code : Nat) (w : ResponseWriter) :
    (w.WriteHeader code).sent = if w.status = none then w.header else w.sent := by
  unfold ResponseWriter.WriteHeader
  cases h : w.status <;> simp

theorem ResponseWriter.Write_header (p : Bytes) (w : ResponseWriter) :
    (w.Write p).2.header = w.header := by
  have h := ResponseWriter.WriteHeader_header 200 w
  rcases hc : (w.WriteHeader 200).conn with _ | ⟨_ | ⟨n, e⟩, rest⟩ <;>
    simp [ResponseWriter.Write, hc, h]

theorem ResponseWriter.Write_status (p : Bytes) (w : ResponseWriter) :
    (w.Write p).2.status = some (w.status.getD 200) := by
  have h := ResponseWriter.WriteHeader_status 200 w
  rcases hc : (w.WriteHeader 200).conn with _ | ⟨_ | ⟨n, e⟩, rest⟩ <;>
    simp [ResponseWriter.Write, hc, h]

theorem ResponseWriter.Write_sent (p : Bytes) (w : ResponseWriter) :
    (w.Write p).2.sent = if w.status = none then w.header else w.sent := by
  have h := ResponseWriter.WriteHeader_sent 200 w
  rcases hc : (w.WriteHeader 200).conn with _ | ⟨_ | ⟨n, e⟩, rest⟩ <;>
    simp [ResponseWriter.Write, hc, h]

theorem ResponseWriter.Write_body_of_accept (p : Bytes) (w : ResponseWriter)
    (h : w.conn.headD none = none) : (w.Write p).2.body = w.body ++ p := by
  unfold ResponseWriter.Write
  have hb := ResponseWriter.WriteHeader_body 200 w
  have hc := ResponseWriter.WriteHeader_conn 200 w
  rcases hw : w.conn with _ | ⟨_ | ⟨n, e⟩, rest⟩
  · simp [hc, hw, hb]
  · simp [hc, hw, hb]
  · simp [hw] at h

/-! ## The two ways a handler answers without streaming -/

/-- What `http.Error` does on a fresh response writer, after the events `pre`. -/
theorem httpError_fresh {σ : Type} (pre : List Event) (code : Nat) (msg : String)
    (conn : List (Option (Nat × GoError))) (drv : σ) :
    AnsweredByHttpError pre code msg conn
      { httpError msg code ⟨drv, ResponseWriter.new conn, pre⟩ with
        w := (httpError msg code ⟨drv, ResponseWriter.new conn, pre⟩).w.finishRequest } ∧
    (httpError msg code ⟨drv, ResponseWriter.new conn, pre⟩).drv = drv := by
  refine ⟨⟨?_, ?_, ⟨(write (textBytes msg ++ [10]) (writeHeader code
      (setHeader "X-Content-Type-Options" "nosniff"
        (setHeader "Content-Type" "text/plain; charset=utf-8"
          ⟨drv, ResponseWriter.new conn, pre⟩)))).1.1,
      (write (textBytes msg ++ [10]) (writeHeader code
      (setHeader "X-Content-Type-Options" "nosniff"
        (setHeader "Content-Type" "text/plain; charset=utf-8"
          ⟨drv, ResponseWriter.new conn, pre⟩)))).1.2, ?_⟩, ?_⟩, ?_⟩
  · simp [httpError, write, writeHeader, setHeader, ResponseWriter.finishRequest,
      ResponseWriter.WriteHeader_status, ResponseWriter.Write_status, ResponseWriter.Set,
      ResponseWriter.new]
  · simp [httpError, write, writeHeader, setHeader, ResponseWriter.finishRequest,
      ResponseWriter.WriteHeader_status, ResponseWriter.Write_status, ResponseWriter.Set,
      ResponseWriter.new, ResponseWriter.WriteHeader_sent, ResponseWriter.Write_sent,
      ResponseWriter.WriteHeader_header, List.lookup]
  · simp [httpError, write, writeHeader, setHeader]
  · intro hc
    simp only [httpError, write, writeHeader, setHeader, ResponseWriter.finishRequest,
      ResponseWriter.WriteHeader_body]
    rw [ResponseWriter.Write_body_of_accept _ _
      (by simpa [ResponseWriter.WriteHeader_conn, ResponseWriter.Set, ResponseWriter.new]
        using hc)]
    simp [ResponseWriter.WriteHeader_body, ResponseWriter.Set, ResponseWriter.new]
  · simp [httpError, write, writeHeader, setHeader]

/-- What `respond` does on a fresh response writer, after the events `pre`. -/
theorem respond_fresh {σ : Type} (J : Json) (err : GoError) (pre : List Event)
    (conn : List (Option (Nat × GoError))) (drv : σ) :
    (respond J err ⟨drv, ResponseWriter.new conn, pre⟩).drv = drv ∧
    (∃ n e, (respond J err ⟨drv, ResponseWriter.new conn, pre⟩).trace = pre ++
      [Event.encodeResponse ⟨err.getD ""⟩,
       Event.write (J.encodeResponse ⟨err.getD ""⟩) n e]) ∧
    (respond J err ⟨drv, ResponseWriter.new conn, pre⟩).w.finishRequest.status = some 200 ∧
    (conn.headD none = none →
      (respond J err ⟨drv, ResponseWriter.new conn, pre⟩).w.finishRequest.body =
        J.encodeResponse ⟨err.getD ""⟩) := by
  have hres : (match err with
      | some e => (⟨e⟩ : response)
      | none => ⟨""⟩) = ⟨err.getD ""⟩ := by cases err <;> rfl
  refine ⟨?_, ⟨(write (J.encodeResponse ⟨err.getD ""⟩)
      ((⟨drv, ResponseWriter.new conn, pre⟩ : World σ).emit
        (Event.encodeResponse ⟨err.getD ""⟩))).1.1,
      (write (J.encodeResponse ⟨err.getD ""⟩)
      ((⟨drv, ResponseWriter.new conn, pre⟩ : World σ).emit
        (Event.encodeResponse ⟨err.getD ""⟩))).1.2, ?_⟩, ?_, ?_⟩
  · simp [respond, encodeResponse, write, World.emit]
  · simp only [respond, encodeResponse, write, World.emit, hres]
    simp
  · simp [respond, encodeResponse, write, World.emit, ResponseWriter.finishRequest,
      ResponseWriter.WriteHeader_status, ResponseWriter.Write_status, ResponseWriter.new]
  · intro hc
    simp only [respond, encodeResponse, write, World.emit, hres,
      ResponseWriter.finishRequest, ResponseWriter.WriteHeader_body]
    rw [ResponseWriter.Write_body_of_accept _ _ (by simpa [ResponseWriter.new] using hc)]
    simp [ResponseWriter.new]

/-! ## The copy loop -/

theorem writeFlusher_trace {σ : Type} (b : Bytes) (s : World σ) :
    (WriteFlusher.Write b s).2.trace = s.trace ++
      [Event.write b (WriteFlusher.Write b s).1.1 (WriteFlusher.Write b s).1.2,
       Event.flush] := by
  simp [WriteFlusher.Write, write, flush]

theorem writeFlusher_drv {σ : Type} (b : Bytes) (s : World σ) :
    (WriteFlusher.Write b s).2.drv = s.drv := by
  simp [WriteFlusher.Write, write, flush]

theorem writeFlusher_header {σ : Type} (b : Bytes) (s : World σ) :
    (WriteFlusher.Write b s).2.w.header = s.w.header := by
  simp [WriteFlusher.Write, write, flush, ResponseWriter.Flush,
    ResponseWriter.WriteHeader_header, ResponseWriter.Write_header]

theorem writeFlusher_status {σ : Type} (b : Bytes) (s : World σ) :
    (WriteFlusher.Write b s).2.w.status = some (s.w.status.getD 200) := by
  simp [WriteFlusher.Write, write, flush, ResponseWriter.Flush,
    ResponseWriter.WriteHeader_status, ResponseWriter.Write_status]

theorem writeFlusher_sent {σ : Type} (b : Bytes) (s : World σ) :
    (WriteFlusher.Write b s).2.w.sent = if s.w.status = none then s.w.header else s.w.sent := by
  simp [WriteFlusher.Write, write, flush, ResponseWriter.Flush,
    ResponseWriter.WriteHeader_sent, ResponseWriter.Write_sent, ResponseWriter.Write_status]

/-- The world after the copy loop met the end of the script. -/
theorem copyLoop_nil_world {σ : Type} (k : Nat) (s : World σ) :
    (copyLoop [] k s).2 = s.emit (Event.streamRead [] (some ReadErr.eof)) := by
  simp [copyLoop]

/-- One round of the copy loop, as far as the world is concerned: the loop goes on exactly
after an error-free read whose chunk, if non-empty, was written in full without error. -/
theorem copyLoop_cons_world {σ : Type} (o : ReadOutcome) (rest : Stream) (k : Nat)
    (s : World σ) :
    (copyLoop (o :: rest) k s).2 =
      if o.data = [] then
        (if o.err = none then (copyLoop rest k (s.emit (Event.streamRead o.data o.err))).2
         else s.emit (Event.streamRead o.data o.err))
      else
        (if (WriteFlusher.Write o.data (s.emit (Event.streamRead o.data o.err))).1.2 = none ∧
            (WriteFlusher.Write o.data (s.emit (Event.streamRead o.data o.err))).1.1 =
              o.data.length ∧ o.err = none then
          (copyLoop rest (k + o.data.length)
            (WriteFlusher.Write o.data (s.emit (Event.streamRead o.data o.err))).2).2
         else (WriteFlusher.Write o.data (s.emit (Event.streamRead o.data o.err))).2) := by
  by_cases hd : o.data = []
  · rcases he : o.err with _ | _ | e <;> simp [copyLoop, hd, he]
  · have hpos : 0 < o.data.length := List.length_pos.mpr hd
    generalize hr : WriteFlusher.Write o.data (s.emit (Event.streamRead o.data o.err)) = r
    obtain ⟨⟨n, ew⟩, s2⟩ := r
    simp only [copyLoop, hpos, if_true, hd, if_false, hr]
    by_cases hlt : o.data.length < n
    · have hne : n ≠ o.data.length := by omega
      cases ew <;> simp [hlt, hne]
    · cases ew with
      | some e => simp [hlt]
      | none =>
        by_cases hn : n = o.data.length
        · rcases he : o.err with _ | _ | e <;> simp [hlt, hn, he]
        · have hn2 : ¬ o.data.length = n := fun h => hn h.symm
          simp [hlt, hn, hn2]

/-- The events a run of the copy loop adds to the trace have the shape `LoopShape`. -/
theorem copyLoop_shape {σ : Type} (st : Stream) :
    ∀ (k : Nat) (s : World σ),
      ∃ evs, (copyLoop st k s).2.trace = s.trace ++ evs ∧ LoopShape evs := by
  induction st with
  | nil =>
    intro k s
    exact ⟨[Event.streamRead [] (some ReadErr.eof)], by simp [copyLoop_nil_world, World.emit],
      LoopShape.stop_read _ _⟩
  | cons o rest ih =>
    intro k s
    rw [copyLoop_cons_world]
    split_ifs with hd he hw
    · obtain ⟨evs, h, hs⟩ := ih k (s.emit (Event.streamRead o.data o.err))
      refine ⟨Event.streamRead o.data o.err :: evs, by rw [h]; simp [World.emit], ?_⟩
      rw [he]
      exact LoopShape.step_empty _ _ hs
    · exact ⟨[Event.streamRead o.data o.err], by simp [World.emit], LoopShape.stop_read _ _⟩
    · obtain ⟨evs, h, hs⟩ := ih (k + o.data.length)
        (WriteFlusher.Write o.data (s.emit (Event.streamRead o.data o.err))).2
      refine ⟨Event.streamRead o.data o.err :: Event.write o.data o.data.length none ::
        Event.flush :: evs, ?_, ?_⟩
      · rw [h, writeFlusher_trace, hw.1, hw.2.1]
        simp [World.emit]
      · rw [hw.2.2]
        exact LoopShape.step_write _ _ hs
    · refine ⟨[Event.streamRead o.data o.err,
        Event.write o.data
          (WriteFlusher.Write o.data (s.emit (Event.streamRead o.data o.err))).1.1
          (WriteFlusher.Write o.data (s.emit (Event.streamRead o.data o.err))).1.2,
        Event.flush], ?_, LoopShape.stop_write _ _ _ _⟩
      rw [writeFlusher_trace]
      simp [World.emit]

/-- The copy loop never touches the driver state. -/
theorem copyLoop_drv {σ : Type} (st : Stream) :
    ∀ (k : Nat) (s : World σ), (copyLoop st k s).2.drv = s.drv := by
  induction st with
  | nil => intro k s; simp [copyLoop_nil_world, World.emit]
  | cons o rest ih =>
    intro k s
    rw [copyLoop_cons_world]
    split_ifs <;> simp [ih, writeFlusher_drv, World.emit]

/-- The copy loop leaves the header map alone; if no status line was written before it,
then afterwards either none is written still, or status 200 went out with that header map. -/
theorem copyLoop_header_status {σ : Type} (st : Stream) (H : List (String × String)) :
    ∀ (k : Nat) (s : World σ),
      s.w.header = H →
      (s.w.status = none ∨ (s.w.status = some 200 ∧ s.w.sent = H)) →
      (copyLoop st k s).2.w.header = H ∧
      ((copyLoop st k s).2.w.status = none ∨
        ((copyLoop st k s).2.w.status = some 200 ∧ (copyLoop st k s).2.w.sent = H)) := by
  have hstep : ∀ (b : Bytes) (s : World σ), s.w.header = H →
      (s.w.status = none ∨ (s.w.status = some 200 ∧ s.w.sent = H)) →
      (WriteFlusher.Write b s).2.w.header = H ∧
      ((WriteFlusher.Write b s).2.w.status = none ∨
        ((WriteFlusher.Write b s).2.w.status = some 200 ∧
          (WriteFlusher.Write b s).2.w.sent = H)) := by
    intro b s hh hs
    refine ⟨by rw [writeFlusher_header, hh], Or.inr ?_⟩
    rw [writeFlusher_status, writeFlusher_sent]
    rcases hs with h | ⟨h1, h2⟩
    · simp [h, hh]
    · simp [h1, h2]
  induction st with
  | nil => intro k s hh hs; simpa [copyLoop_nil_world, World.emit] using ⟨hh, hs⟩
  | cons o rest ih =>
    intro k s hh hs
    rw [copyLoop_cons_world]
    split_ifs
    · exact ih _ _ (by simpa [World.emit] using hh) (by simpa [World.emit] using hs)
    · simpa [World.emit] using ⟨hh, hs⟩
    · obtain ⟨h1, h2⟩ := hstep o.data (s.emit (Event.streamRead o.data o.err))
        (by simpa [World.emit] using hh) (by simpa [World.emit] using hs)
      exact ih _ _ h1 h2
    · exact hstep o.data (s.emit (Event.streamRead o.data o.err))
        (by simpa [World.emit] using hh) (by simpa [World.emit] using hs)

/-- A write on a connection that accepts everything returns the full count and no error,
appends the chunk to the body, and leaves a connection that accepts everything. -/
theorem ResponseWriter.Write_of_all_accept (p : Bytes) (w : ResponseWriter)
    (h : ∀ c ∈ w.conn, c = none) :
    (w.Write p).1 = (p.length, none) ∧ (w.Write p).2.body = w.body ++ p ∧
      ∀ c ∈ (w.Write p).2.conn, c = none := by
  have hb := ResponseWriter.WriteHeader_body 200 w
  have hc := ResponseWriter.WriteHeader_conn 200 w
  rcases hw : w.conn with _ | ⟨_ | ⟨n, e⟩, rest⟩
  · simp [ResponseWriter.Write, hc, hw, hb]
  · rw [hw] at h
    simp only [ResponseWriter.Write, hc, hw, hb, true_and]
    exact fun c hcin => h c (List.mem_cons_of_mem _ hcin)
  · rw [hw] at h
    simpa using h (some (n, e)) (List.mem_cons_self _ _)

/-- On a connection that accepts everything, the copy loop appends to the body exactly the
bytes the stream produces up to its end. -/
theorem copyLoop_body {σ : Type} (st : Stream) :
    ∀ (k : Nat) (s : World σ), (∀ c ∈ s.w.conn, c = none) →
      (copyLoop st k s).2.w.body = s.w.body ++ Stream.produced st := by
  have hstep : ∀ (b : Bytes) (s : World σ), (∀ c ∈ s.w.conn, c = none) →
      (WriteFlusher.Write b s).1 = (b.length, none) ∧
      (WriteFlusher.Write b s).2.w.body = s.w.body ++ b ∧
      ∀ c ∈ (WriteFlusher.Write b s).2.w.conn, c = none := by
    intro b s h
    obtain ⟨h1, h2, h3⟩ := ResponseWriter.Write_of_all_accept b s.w h
    refine ⟨by simpa [WriteFlusher.Write, write] using h1, ?_, ?_⟩
    · simpa [WriteFlusher.Write, write, flush, ResponseWriter.Flush,
        ResponseWriter.WriteHeader_body] using h2
    · simpa [WriteFlusher.Write, write, flush, ResponseWriter.Flush,
        ResponseWriter.WriteHeader_conn] using h3
  induction st with
  | nil => intro k s _; simp [copyLoop_nil_world, World.emit, Stream.produced]
  | cons o rest ih =>
    intro k s h
    rw [copyLoop_cons_world]
    split_ifs with hd he hw
    · rw [ih _ _ (by simpa [World.emit] using h)]
      simp [World.emit, Stream.produced, he, hd]
    · rcases hoe : o.err with _ | e
      · exact absurd hoe he
      · simp [World.emit, Stream.produced, hoe, hd]
    · obtain ⟨_, h2, h3⟩ := hstep o.data (s.emit (Event.streamRead o.data o.err))
        (by simpa [World.emit] using h)
      rw [ih _ _ h3, h2]
      simp [World.emit, Stream.produced, hw.2.2]
    · obtain ⟨h1, h2, _⟩ := hstep o.data (s.emit (Event.streamRead o.data o.err))
        (by simpa [World.emit] using h)
      rw [h2]
      rcases hoe : o.err with _ | e
      · exact absurd ⟨by rw [h1], by rw [h1], hoe⟩ hw
      · simp [World.emit, Stream.produced, hoe]

/-- A property that holds along a list holds wherever the list is cut. -/
theorem chain_split (P : Event → List Event → Prop) :
    ∀ (l₁ tr : List Event) (e : Event) (l₂ : List Event),
      Chain P tr → tr = l₁ ++ e :: l₂ → P e l₂ := by
  intro l₁
  induction l₁ with
  | nil =>
    intro tr e l₂ h heq
    subst heq
    exact h.1
  | cons a l ih =>
    intro tr e l₂ h heq
    subst heq
    exact ih _ e l₂ h.2 rfl

/-- A property of writes holds along the events of a copy loop followed by `tail` as soon
as it holds for a full error-free write followed by a flush, for any write followed by a
flush and `tail`, along `tail`, and for reads and flushes. -/
theorem loopShape_chain (P : Event → List Event → Prop) (tail : List Event)
    (hread : ∀ d e rest, P (Event.streamRead d e) rest)
    (hflush : ∀ rest, P Event.flush rest)
    (hfull : ∀ d rest, P (Event.write d d.length none) (Event.flush :: rest))
    (hlast : ∀ d n err, P (Event.write d n err) (Event.flush :: tail))
    (htail : Chain P tail) :
    ∀ evs, LoopShape evs → Chain P (evs ++ tail) := by
  intro evs h
  induction h with
  | stop_read d e => exact ⟨hread _ _ _, htail⟩
  | stop_write d e n err => exact ⟨hread _ _ _, hlast _ _ _, hflush _, htail⟩
  | step_empty d tl _ ih => exact ⟨hread _ _ _, ih⟩
  | step_write d tl _ ih => exact ⟨hread _ _ _, hfull _ _, hflush _, ih⟩

/-- The copy loop never closes the stream. -/
theorem loopShape_no_close : ∀ evs, LoopShape evs → Event.streamClose ∉ evs := by
  intro evs h
  induction h with
  | stop_read d e => simp
  | stop_write d e n err => simp
  | step_empty d tl _ ih => simpa using ih
  | step_write d tl _ ih => simpa using ih

/-- The exchange of a ReadLogs request that decodes and for which the driver returns a
stream: the header is set, the copy loop runs, and the deferred close comes last. -/
theorem readLogs_stream_world {σ : Type} (J : Json) (d : Driver σ) (body : Bytes)
    (req : ReadLogsRequest) (stream : Stream) (drv : σ)
    (conn : List (Option (Nat × GoError)))
    (hdec : J.decodeRead body = .ok req)
    (hok : (d.ReadLogs req.Info req.Config drv).1 = .ok stream) :
    serve (ReadLogsHandler J d body) drv conn =
      ⟨(copyLoop stream 0 (⟨(d.ReadLogs req.Info req.Config drv).2,
          (ResponseWriter.new conn).Set "Content-Type" "application/x-json-stream",
          [Event.readLogs req.Info req.Config,
           Event.setHeader "Content-Type" "application/x-json-stream"]⟩ : World σ)).2.drv,
        (copyLoop stream 0 (⟨(d.ReadLogs req.Info req.Config drv).2,
          (ResponseWriter.new conn).Set "Content-Type" "application/x-json-stream",
          [Event.readLogs req.Info req.Config,
           Event.setHeader "Content-Type" "application/x-json-stream"]⟩ :
            World σ)).2.w.finishRequest,
        (copyLoop stream 0 (⟨(d.ReadLogs req.Info req.Config drv).2,
          (ResponseWriter.new conn).Set "Content-Type" "application/x-json-stream",
          [Event.readLogs req.Info req.Config,
           Event.setHeader "Content-Type" "application/x-json-stream"]⟩ :
            World σ)).2.trace ++ [Event.streamClose]⟩ := by
  simp [serve, ReadLogsHandler, hdec, hok, World.emit, World.init, setHeader, ioCopy]

/-- The trace of such an exchange: the driver call, the header, the events of the copy
loop, the close. -/
theorem readLogs_stream_trace {σ : Type} (J : Json) (d : Driver σ) (body : Bytes)
    (req : ReadLogsRequest) (stream : Stream) (drv : σ)
    (conn : List (Option (Nat × GoError)))
    (hdec : J.decodeRead body = .ok req)
    (hok : (d.ReadLogs req.Info req.Config drv).1 = .ok stream) :
    ∃ evs, LoopShape evs ∧
      (serve (ReadLogsHandler J d body) drv conn).trace =
        Event.readLogs req.Info req.Config ::
          Event.setHeader "Content-Type" "application/x-json-stream" ::
            (evs ++ [Event.streamClose]) := by
  rw [readLogs_stream_world J d body req stream drv conn hdec hok]
  obtain ⟨evs, h, hs⟩ := copyLoop_shape stream 0
    (⟨(d.ReadLogs req.Info req.Config drv).2,
      (ResponseWriter.new conn).Set "Content-Type" "application/x-json-stream",
      [Event.readLogs req.Info req.Config,
       Event.setHeader "Content-Type" "application/x-json-stream"]⟩ : World σ)
  exact ⟨evs, hs, by simp [h]⟩

/-! ## Claims -/

/-- C1: a StartLogging request that decodes and has an empty `Info.ContainerID` makes no
driver call (the trace holds no driver event and the driver state is unchanged) and is
answered, with status 200, by the encoded envelope whose `Err` is
"must provide container id in log context"; no status line is written explicitly. -/
theorem startLogging_rejects_empty_container_id {σ : Type} (J : Json) (d : Driver σ)
    (body : Bytes) (req : StartLoggingRequest) (drv : σ)
    (conn : List (Option (Nat × GoError)))
    (hdec : J.decodeStart body = .ok req) (hid : req.Info.ContainerID = "") :
    (serve (StartLoggingHandler J d body) drv conn).trace.filter Event.isDriverCall = [] ∧
    (serve (StartLoggingHandler J d body) drv conn).drv = drv ∧
    (∃ n err, (serve (StartLoggingHandler J d body) drv conn).trace =
      [Event.encodeResponse ⟨"must provide container id in log context"⟩,
       Event.write (J.encodeResponse ⟨"must provide container id in log context"⟩) n err]) ∧
    (serve (StartLoggingHandler J d body) drv conn).w.status = some 200 ∧
    (conn.headD none = none →
      (serve (StartLoggingHandler J d body) drv conn).w.body =
        J.encodeResponse ⟨"must provide container id in log context"⟩) := by
  have hs : serve (StartLoggingHandler J d body) drv conn =
      ⟨drv, ((ResponseWriter.new conn).Write
          (J.encodeResponse ⟨"must provide container id in log context"⟩)).2.finishRequest,
        [Event.encodeResponse ⟨"must provide container id in log context"⟩,
         Event.write (J.encodeResponse ⟨"must provide container id in log context"⟩)
          ((ResponseWriter.new conn).Write
            (J.encodeResponse ⟨"must provide container id in log context"⟩)).1.1
          ((ResponseWriter.new conn).Write
            (J.encodeResponse ⟨"must provide container id in log context"⟩)).1.2]⟩ := by
    simp [serve, StartLoggingHandler, hdec, hid, respond, encodeResponse, write, World.emit,
      World.init]
  rw [hs]
  refine ⟨by simp [Event.isDriverCall], rfl, ⟨_, _, rfl⟩, ?_, ?_⟩
  · simp [ResponseWriter.finishRequest, ResponseWriter.WriteHeader_status,
      ResponseWriter.Write_status, ResponseWriter.new]
  · intro hc
    simp [ResponseWriter.finishRequest, ResponseWriter.WriteHeader_body]
    rw [ResponseWriter.Write_body_of_accept _ _ (by simpa [ResponseWriter.new] using hc)]
    simp [ResponseWriter.new]

/-- Witness of C1 on the sample JSON library and driver: body `[0]` decodes to a request
with an empty container id. -/
theorem startLogging_rejects_empty_container_id_witness :
    sampleJson.decodeStart [0] = .ok ⟨"fifo1", ⟨"", []⟩⟩ ∧
    (serve (StartLoggingHandler sampleJson sampleDriver [0]) 0 []).trace.filter
      Event.isDriverCall = [] ∧
    (serve (StartLoggingHandler sampleJson sampleDriver [0]) 0 []).drv = 0 :=
  ⟨rfl,
   (startLogging_rejects_empty_container_id sampleJson sampleDriver [0] ⟨"fifo1", ⟨"", []⟩⟩
      0 [] rfl rfl).1,
   (startLogging_rejects_empty_container_id sampleJson sampleDriver [0] ⟨"fifo1", ⟨"", []⟩⟩
      0 [] rfl rfl).2.1⟩

/-- C2: a StartLogging request that decodes with a non-empty container id, and a
StopLogging request that decodes, each call the driver exactly once, with the fields of the
request as decoded (`File` and `Info`, resp. `File`); the envelope then encoded has `Err`
empty when the driver returned `nil` and equal to the text of the error it returned
otherwise, and the status is 200. -/
theorem start_stop_pass_driver_result {σ : Type} (J : Json) (d : Driver σ) (body : Bytes)
    (drv : σ) (conn : List (Option (Nat × GoError))) :
    (∀ req, J.decodeStart body = .ok req → req.Info.ContainerID ≠ "" →
      ∃ res : response, ∃ n e,
        (serve (StartLoggingHandler J d body) drv conn).trace =
          [Event.startLogging req.File req.Info, Event.encodeResponse res,
           Event.write (J.encodeResponse res) n e] ∧
        (serve (StartLoggingHandler J d body) drv conn).drv =
          (d.StartLogging req.File req.Info drv).2 ∧
        ((d.StartLogging req.File req.Info drv).1 = none → res.Err = "") ∧
        (∀ msg, (d.StartLogging req.File req.Info drv).1 = some msg → res.Err = msg) ∧
        (serve (StartLoggingHandler J d body) drv conn).w.status = some 200 ∧
        (conn.headD none = none →
          (serve (StartLoggingHandler J d body) drv conn).w.body = J.encodeResponse res)) ∧
    (∀ req, J.decodeStop body = .ok req →
      ∃ res : response, ∃ n e,
        (serve (StopLoggingHandler J d body) drv conn).trace =
          [Event.stopLogging req.File, Event.encodeResponse res,
           Event.write (J.encodeResponse res) n e] ∧
        (serve (StopLoggingHandler J d body) drv conn).drv = (d.StopLogging req.File drv).2 ∧
        ((d.StopLogging req.File drv).1 = none → res.Err = "") ∧
        (∀ msg, (d.StopLogging req.File drv).1 = some msg → res.Err = msg) ∧
        (serve (StopLoggingHandler J d body) drv conn).w.status = some 200 ∧
        (conn.headD none = none →
          (serve (StopLoggingHandler J d body) drv conn).w.body = J.encodeResponse res)) := by
  constructor
  · intro req hdec hid
    have hs : serve (StartLoggingHandler J d body) drv conn =
        { respond J (d.StartLogging req.File req.Info drv).1
            ⟨(d.StartLogging req.File req.Info drv).2, ResponseWriter.new conn,
              [Event.startLogging req.File req.Info]⟩ with
          w := (respond J (d.StartLogging req.File req.Info drv).1
            ⟨(d.StartLogging req.File req.Info drv).2, ResponseWriter.new conn,
              [Event.startLogging req.File req.Info]⟩).w.finishRequest } := by
      simp [serve, StartLoggingHandler, hdec, hid, World.emit, World.init]
    obtain ⟨h1, ⟨n, e, h2⟩, h3, h4⟩ := respond_fresh J (d.StartLogging req.File req.Info drv).1
      [Event.startLogging req.File req.Info] conn (d.StartLogging req.File req.Info drv).2
    refine ⟨⟨(d.StartLogging req.File req.Info drv).1.getD ""⟩, n, e, ?_, ?_, ?_, ?_, ?_, ?_⟩
    · rw [hs]; simpa using h2
    · rw [hs]; exact h1
    · intro h; simp [h]
    · intro msg h; simp [h]
    · rw [hs]; exact h3
    · rw [hs]; exact h4
  · intro req hdec
    have hs : serve (StopLoggingHandler J d body) drv conn =
        { respond J (d.StopLogging req.File drv).1
            ⟨(d.StopLogging req.File drv).2, ResponseWriter.new conn,
              [Event.stopLogging req.File]⟩ with
          w := (respond J (d.StopLogging req.File drv).1
            ⟨(d.StopLogging req.File drv).2, ResponseWriter.new conn,
              [Event.stopLogging req.File]⟩).w.finishRequest } := by
      simp [serve, StopLoggingHandler, hdec, World.emit, World.init]
    obtain ⟨h1, ⟨n, e, h2⟩, h3, h4⟩ := respond_fresh J (d.StopLogging req.File drv).1
      [Event.stopLogging req.File] conn (d.StopLogging req.File drv).2
    refine ⟨⟨(d.StopLogging req.File drv).1.getD ""⟩, n, e, ?_, ?_, ?_, ?_, ?_, ?_⟩
    · rw [hs]; simpa using h2
    · rw [hs]; exact h1
    · intro h; simp [h]
    · intro msg h; simp [h]
    · rw [hs]; exact h3
    · rw [hs]; exact h4

/-- Witness of C2 on the sample JSON library and driver: body `[1]` decodes for both
endpoints, with container id "c1". -/
theorem start_stop_pass_driver_result_witness :
    (sampleJson.decodeStart [1] = .ok ⟨"fifo1", ⟨"c1", []⟩⟩ ∧ "c1" ≠ "" ∧
      ∃ res : response, ∃ n e,
        (serve (StartLoggingHandler sampleJson sampleDriver [1]) 0 []).trace =
          [Event.startLogging "fifo1" ⟨"c1", []⟩, Event.encodeResponse res,
           Event.write (sampleJson.encodeResponse res) n e]) ∧
    (sampleJson.decodeStop [1] = .ok ⟨"fifo1"⟩ ∧
      ∃ res : response, ∃ n e,
        (serve (StopLoggingHandler sampleJson sampleDriver [1]) 0 []).trace =
          [Event.stopLogging "fifo1", Event.encodeResponse res,
           Event.write (sampleJson.encodeResponse res) n e]) :=
  ⟨⟨rfl, by decide,
    (((start_stop_pass_driver_result sampleJson sampleDriver [1] 0 []).1
      ⟨"fifo1", ⟨"c1", []⟩⟩ rfl (by decide)).imp
        fun _ h => h.imp fun _ h => h.imp fun _ h => h.1)⟩,
   ⟨rfl,
    (((start_stop_pass_driver_result sampleJson sampleDriver [1] 0 []).2
      ⟨"fifo1"⟩ rfl).imp fun _ h => h.imp fun _ h => h.imp fun _ h => h.1)⟩⟩

/-- C5: whatever the request body (decodable or not), the driver and its state, the
Capabilities handler makes no driver call, leaves the driver state alone, writes no error
status, and encodes the one envelope with `Err` empty and `Cap.ReadLogs` true, answered
with status 200; the whole outcome is the same for every body, driver and driver state. -/
theorem capabilities_constant {σ : Type} (J : Json) (d : Driver σ) (body : Bytes) (drv : σ)
    (conn : List (Option (Nat × GoError))) :
    (serve (CapabilitiesHandler J d body) drv conn).trace.filter Event.isDriverCall = [] ∧
    (serve (CapabilitiesHandler J d body) drv conn).drv = drv ∧
    (∃ n err, (serve (CapabilitiesHandler J d body) drv conn).trace =
      [Event.encodeCapabilities ⟨"", ⟨true⟩⟩,
       Event.write (J.encodeCapabilities ⟨"", ⟨true⟩⟩) n err]) ∧
    (serve (CapabilitiesHandler J d body) drv conn).w.status = some 200 ∧
    (conn.headD none = none →
      (serve (CapabilitiesHandler J d body) drv conn).w.body =
        J.encodeCapabilities ⟨"", ⟨true⟩⟩) ∧
    (∀ (d2 : Driver σ) (body2 : Bytes) (drv2 : σ),
      (serve (CapabilitiesHandler J d2 body2) drv2 conn).trace =
        (serve (CapabilitiesHandler J d body) drv conn).trace ∧
      (serve (CapabilitiesHandler J d2 body2) drv2 conn).w =
        (serve (CapabilitiesHandler J d body) drv conn).w) := by
  refine ⟨?_, ?_, ⟨(write (J.encodeCapabilities ⟨"", ⟨true⟩⟩)
      ((World.init drv conn).emit (Event.encodeCapabilities ⟨"", ⟨true⟩⟩))).1.1,
      (write (J.encodeCapabilities ⟨"", ⟨true⟩⟩)
      ((World.init drv conn).emit (Event.encodeCapabilities ⟨"", ⟨true⟩⟩))).1.2, ?_⟩,
      ?_, ?_, ?_⟩
  · simp [serve, CapabilitiesHandler, encodeCapabilities, write, World.emit, World.init,
      Event.isDriverCall]
  · simp [serve, CapabilitiesHandler, encodeCapabilities, write, World.emit, World.init]
  · simp [serve, CapabilitiesHandler, encodeCapabilities, write, World.emit, World.init]
  · simp [serve, CapabilitiesHandler, encodeCapabilities, write, World.emit, World.init,
      ResponseWriter.finishRequest, ResponseWriter.WriteHeader_status,
      ResponseWriter.Write_status, ResponseWriter.new]
  · intro hc
    simp only [serve, CapabilitiesHandler, encodeCapabilities, write, World.emit,
      World.init, ResponseWriter.finishRequest, ResponseWriter.WriteHeader_body]
    rw [ResponseWriter.Write_body_of_accept _ _ (by simpa [ResponseWriter.new] using hc)]
    simp [ResponseWriter.new]
  · intro d2 body2 drv2
    simp [serve, CapabilitiesHandler, encodeCapabilities, write, World.emit, World.init]

/-- Witness of C5: the sample exchange with an undecodable (empty) body on an accepting
connection carries the encoded capabilities as its body. -/
theorem capabilities_constant_witness :
    sampleJson.decodeStart [] = .error "EOF" ∧
    (serve (CapabilitiesHandler sampleJson sampleDriver []) 7 []).w.body =
      sampleJson.encodeCapabilities ⟨"", ⟨true⟩⟩ :=
  ⟨rfl, (capabilities_constant sampleJson sampleDriver [] 7 []).2.2.2.2.1 rfl⟩

/-- C6: when the request body does not decode, each of the StartLogging, StopLogging and
ReadLogs handlers answers through `http.Error` with status 400 and the text of the decode
error (plus a newline) as the only write, leaves the driver state alone, and its trace
holds no driver call, no encoded envelope and no stream event. -/
theorem decode_failure_is_bad_request {σ : Type} (J : Json) (d : Driver σ) (body : Bytes)
    (err : String) (drv : σ) (conn : List (Option (Nat × GoError))) :
    (J.decodeStart body = .error err →
      AnsweredByHttpError [] 400 err conn (serve (StartLoggingHandler J d body) drv conn) ∧
      (serve (StartLoggingHandler J d body) drv conn).drv = drv ∧
      (serve (StartLoggingHandler J d body) drv conn).trace.filter
        (fun e => e.isDriverCall || e.isEncode || e.isStream) = []) ∧
    (J.decodeStop body = .error err →
      AnsweredByHttpError [] 400 err conn (serve (StopLoggingHandler J d body) drv conn) ∧
      (serve (StopLoggingHandler J d body) drv conn).drv = drv ∧
      (serve (StopLoggingHandler J d body) drv conn).trace.filter
        (fun e => e.isDriverCall || e.isEncode || e.isStream) = []) ∧
    (J.decodeRead body = .error err →
      AnsweredByHttpError [] 400 err conn (serve (ReadLogsHandler J d body) drv conn) ∧
      (serve (ReadLogsHandler J d body) drv conn).drv = drv ∧
      (serve (ReadLogsHandler J d body) drv conn).trace.filter
        (fun e => e.isDriverCall || e.isEncode || e.isStream) = []) := by
  have key : ∀ s : World σ,
      s = { httpError err 400 ⟨drv, ResponseWriter.new conn, []⟩ with
            w := (httpError err 400 ⟨drv, ResponseWriter.new conn, []⟩).w.finishRequest } →
      AnsweredByHttpError [] 400 err conn s ∧ s.drv = drv ∧
      s.trace.filter (fun e => e.isDriverCall || e.isEncode || e.isStream) = [] := by
    intro s hs
    obtain ⟨h1, h2⟩ := httpError_fresh [] 400 err conn drv
    rw [← hs] at h1
    refine ⟨h1, by rw [hs]; exact h2, ?_⟩
    obtain ⟨_, _, ⟨n, e, ht⟩, _⟩ := h1
    rw [ht]
    simp [Event.isDriverCall, Event.isEncode, Event.isStream]
  refine ⟨fun h => key _ ?_, fun h => key _ ?_, fun h => key _ ?_⟩
  · simp [serve, StartLoggingHandler, h, World.init]
  · simp [serve, StopLoggingHandler, h, World.init]
  · simp [serve, ReadLogsHandler, h, World.init]

/-- Witness of C6: the empty body fails to decode in the sample JSON library, for each of
the three request types. -/
theorem decode_failure_is_bad_request_witness :
    (sampleJson.decodeStart [] = .error "EOF" ∧
      (serve (StartLoggingHandler sampleJson sampleDriver []) 0 []).drv = 0) ∧
    (sampleJson.decodeStop [] = .error "EOF" ∧
      (serve (StopLoggingHandler sampleJson sampleDriver []) 0 []).drv = 0) ∧
    (sampleJson.decodeRead [] = .error "EOF" ∧
      (serve (ReadLogsHandler sampleJson sampleDriver []) 0 []).drv = 0) :=
  ⟨⟨rfl, ((decode_failure_is_bad_request sampleJson sampleDriver [] "EOF" 0 []).1 rfl).2.1⟩,
   ⟨rfl, ((decode_failure_is_bad_request sampleJson sampleDriver [] "EOF" 0 []).2.1 rfl).2.1⟩,
   ⟨rfl, ((decode_failure_is_bad_request sampleJson sampleDriver [] "EOF" 0 []).2.2 rfl).2.1⟩⟩

/-- C3: when the ReadLogs body decodes and `d.ReadLogs` returns an error, the driver is
called once and the answer goes through `http.Error`: status 500, plain-text headers, the
text of the error (plus a newline) as the only write.  The Content-Type is never set to
application/x-json-stream, nothing is flushed, and the trace holds no stream event: the
status line is written with no stream read or stream byte before or after it. -/
theorem readLogs_backend_error_is_500 {σ : Type} (J : Json) (d : Driver σ) (body : Bytes)
    (req : ReadLogsRequest) (msg : String) (drv : σ) (conn : List (Option (Nat × GoError)))
    (hdec : J.decodeRead body = .ok req)
    (herr : (d.ReadLogs req.Info req.Config drv).1 = .error msg) :
    AnsweredByHttpError [Event.readLogs req.Info req.Config] 500 msg conn
      (serve (ReadLogsHandler J d body) drv conn) ∧
    (serve (ReadLogsHandler J d body) drv conn).drv = (d.ReadLogs req.Info req.Config drv).2 ∧
    Event.setHeader "Content-Type" "application/x-json-stream" ∉
      (serve (ReadLogsHandler J d body) drv conn).trace ∧
    (serve (ReadLogsHandler J d body) drv conn).w.sent.lookup "Content-Type" ≠
      some "application/x-json-stream" ∧
    Event.flush ∉ (serve (ReadLogsHandler J d body) drv conn).trace ∧
    (serve (ReadLogsHandler J d body) drv conn).trace.filter Event.isStream = [] := by
  have hs : serve (ReadLogsHandler J d body) drv conn =
      { httpError msg 500 ⟨(d.ReadLogs req.Info req.Config drv).2, ResponseWriter.new conn,
          [Event.readLogs req.Info req.Config]⟩ with
        w := (httpError msg 500 ⟨(d.ReadLogs req.Info req.Config drv).2,
          ResponseWriter.new conn, [Event.readLogs req.Info req.Config]⟩).w.finishRequest } := by
    simp [serve, ReadLogsHandler, hdec, herr, World.emit, World.init]
  obtain ⟨h1, h2⟩ := httpError_fresh [Event.readLogs req.Info req.Config] 500 msg conn
    (d.ReadLogs req.Info req.Config drv).2
  rw [← hs] at h1
  refine ⟨h1, by rw [hs]; exact h2, ?_, ?_, ?_, ?_⟩
  · obtain ⟨_, _, ⟨n, e, ht⟩, _⟩ := h1
    rw [ht]; simp
  · obtain ⟨_, hct, _, _⟩ := h1
    rw [hct]; simp
  · obtain ⟨_, _, ⟨n, e, ht⟩, _⟩ := h1
    rw [ht]; simp
  · obtain ⟨_, _, ⟨n, e, ht⟩, _⟩ := h1
    rw [ht]; simp [Event.isStream]

/-- Witness of C3: the sample driver does not know the container with the empty id. -/
theorem readLogs_backend_error_is_500_witness :
    sampleJson.decodeRead [0] = .ok ⟨⟨"", []⟩, ⟨0, 0, false⟩⟩ ∧
    (sampleDriver.ReadLogs ⟨"", []⟩ ⟨0, 0, false⟩ 0).1 = .error "unknown container" ∧
    (serve (ReadLogsHandler sampleJson sampleDriver [0]) 0 []).w.status = some 500 :=
  ⟨rfl, rfl,
   (readLogs_backend_error_is_500 sampleJson sampleDriver [0] ⟨⟨"", []⟩, ⟨0, 0, false⟩⟩
      "unknown container" 0 [] rfl rfl).1.1⟩

/-- C4: when the ReadLogs body decodes and `d.ReadLogs` returns a stream, the response goes
out with status 200 and the single header Content-Type: application/x-json-stream, and, if
every write is accepted, the response body is exactly the byte sequence the stream produces
up to its end (its first read that returns `io.EOF` or an error), in order, nothing added
and nothing dropped. -/
theorem readLogs_body_is_stream {σ : Type} (J : Json) (d : Driver σ) (body : Bytes)
    (req : ReadLogsRequest) (stream : Stream) (drv : σ)
    (conn : List (Option (Nat × GoError)))
    (hdec : J.decodeRead body = .ok req)
    (hok : (d.ReadLogs req.Info req.Config drv).1 = .ok stream) :
    (serve (ReadLogsHandler J d body) drv conn).w.status = some 200 ∧
    (serve (ReadLogsHandler J d body) drv conn).w.sent =
      [("Content-Type", "application/x-json-stream")] ∧
    (serve (ReadLogsHandler J d body) drv conn).w.sent.lookup "Content-Type" =
      some "application/x-json-stream" ∧
    ((∀ c ∈ conn, c = none) →
      (serve (ReadLogsHandler J d body) drv conn).w.body = Stream.produced stream) := by
  rw [readLogs_stream_world J d body req stream drv conn hdec hok]
  obtain ⟨hh, hs⟩ := copyLoop_header_status stream
    [("Content-Type", "application/x-json-stream")] 0
    (⟨(d.ReadLogs req.Info req.Config drv).2,
      (ResponseWriter.new conn).Set "Content-Type" "application/x-json-stream",
      [Event.readLogs req.Info req.Config,
       Event.setHeader "Content-Type" "application/x-json-stream"]⟩ : World σ)
    (by simp [ResponseWriter.Set, ResponseWriter.new])
    (Or.inl (by simp [ResponseWriter.Set, ResponseWriter.new]))
  have hsent : ((copyLoop stream 0 (⟨(d.ReadLogs req.Info req.Config drv).2,
      (ResponseWriter.new conn).Set "Content-Type" "application/x-json-stream",
      [Event.readLogs req.Info req.Config,
       Event.setHeader "Content-Type" "application/x-json-stream"]⟩ :
        World σ)).2.w.finishRequest).sent = [("Content-Type", "application/x-json-stream")] := by
    rw [ResponseWriter.finishRequest, ResponseWriter.WriteHeader_sent]
    rcases hs with h | ⟨h1, h2⟩
    · simp [h, hh]
    · simp [h1, h2]
  refine ⟨?_, hsent, ?_, ?_⟩
  · show (ResponseWriter.finishRequest _).status = some 200
    rw [ResponseWriter.finishRequest, ResponseWriter.WriteHeader_status]
    rcases hs with h | ⟨h1, _⟩
    · simp [h]
    · simp [h1]
  · show (ResponseWriter.finishRequest _).sent.lookup "Content-Type" = _
    rw [hsent]
    simp [List.lookup]
  · intro hacc
    show (ResponseWriter.finishRequest _).body = _
    rw [ResponseWriter.finishRequest, ResponseWriter.WriteHeader_body,
      copyLoop_body stream 0 _ (by simpa [ResponseWriter.Set, ResponseWriter.new] using hacc)]
    simp [ResponseWriter.Set, ResponseWriter.new]

/-- Witness of C4: the sample driver streams two chunks for container "c1", and on an
accepting connection the body is their concatenation. -/
theorem readLogs_body_is_stream_witness :
    sampleJson.decodeRead [1] = .ok ⟨⟨"c1", []⟩, ⟨0, 0, false⟩⟩ ∧
    (sampleDriver.ReadLogs ⟨"c1", []⟩ ⟨0, 0, false⟩ 0).1 =
      .ok [⟨[1, 10], none⟩, ⟨[2, 10], some ReadErr.eof⟩] ∧
    (serve (ReadLogsHandler sampleJson sampleDriver [1]) 0 [none, none]).w.body =
      Stream.produced [⟨[1, 10], none⟩, ⟨[2, 10], some ReadErr.eof⟩] :=
  ⟨rfl, rfl,
   (readLogs_body_is_stream sampleJson sampleDriver [1] ⟨⟨"c1", []⟩, ⟨0, 0, false⟩⟩
      [⟨[1, 10], none⟩, ⟨[2, 10], some ReadErr.eof⟩] 0 [none, none] rfl rfl).2.2.2
      (by decide)⟩

/-- C7: when `d.ReadLogs` returns a stream, the trace of the exchange holds exactly one
`Close` of the stream and it is the last call of the handler, whatever the stream delivers
and however the writes go (end of stream, read error, write error); when `d.ReadLogs` fails,
or the body does not decode, the stream is never closed. -/
theorem readLogs_closes_stream_once {σ : Type} (J : Json) (d : Driver σ) (body : Bytes)
    (drv : σ) (conn : List (Option (Nat × GoError))) :
    (∀ req stream, J.decodeRead body = .ok req →
      (d.ReadLogs req.Info req.Config drv).1 = .ok stream →
      (serve (ReadLogsHandler J d body) drv conn).trace.count Event.streamClose = 1 ∧
      (serve (ReadLogsHandler J d body) drv conn).trace.getLast? = some Event.streamClose) ∧
    (∀ req msg, J.decodeRead body = .ok req →
      (d.ReadLogs req.Info req.Config drv).1 = .error msg →
      Event.streamClose ∉ (serve (ReadLogsHandler J d body) drv conn).trace) ∧
    (∀ err, J.decodeRead body = .error err →
      Event.streamClose ∉ (serve (ReadLogsHandler J d body) drv conn).trace) := by
  refine ⟨?_, ?_, ?_⟩
  · intro req stream hdec hok
    obtain ⟨evs, hs, ht⟩ := readLogs_stream_trace J d body req stream drv conn hdec hok
    have hno := loopShape_no_close evs hs
    rw [ht]
    constructor
    · simp [List.count_cons, List.count_append, List.count_eq_zero_of_not_mem hno]
    · have hcat : Event.readLogs req.Info req.Config ::
          Event.setHeader "Content-Type" "application/x-json-stream" ::
            (evs ++ [Event.streamClose]) =
          (Event.readLogs req.Info req.Config ::
            Event.setHeader "Content-Type" "application/x-json-stream" :: evs) ++
              [Event.streamClose] := rfl
      rw [hcat, List.getLast?_concat]
  · intro req msg hdec herr
    have hs : (serve (ReadLogsHandler J d body) drv conn).trace =
        (httpError msg 500 (⟨(d.ReadLogs req.Info req.Config drv).2, ResponseWriter.new conn,
          [Event.readLogs req.Info req.Config]⟩ : World σ)).trace := by
      simp [serve, ReadLogsHandler, hdec, herr, World.emit, World.init]
    rw [hs]
    simp [httpError, write, writeHeader, setHeader]
  · intro err hdec
    have hs : (serve (ReadLogsHandler J d body) drv conn).trace =
        (httpError err 400 (⟨drv, ResponseWriter.new conn, []⟩ : World σ)).trace := by
      simp [serve, ReadLogsHandler, hdec, World.init]
    rw [hs]
    simp [httpError, write, writeHeader, setHeader]

/-- Witness of C7: on the sample driver a stream is returned for "c1" (closed once, even
with the first write failing), none for the empty container id, and the empty body does not
decode. -/
theorem readLogs_closes_stream_once_witness :
    (sampleJson.decodeRead [1] = .ok ⟨⟨"c1", []⟩, ⟨0, 0, false⟩⟩ ∧
      (sampleDriver.ReadLogs ⟨"c1", []⟩ ⟨0, 0, false⟩ 0).1 =
        .ok [⟨[1, 10], none⟩, ⟨[2, 10], some ReadErr.eof⟩] ∧
      (serve (ReadLogsHandler sampleJson sampleDriver [1]) 0
        [some (0, some "broken pipe")]).trace.count Event.streamClose = 1) ∧
    (sampleJson.decodeRead [0] = .ok ⟨⟨"", []⟩, ⟨0, 0, false⟩⟩ ∧
      (sampleDriver.ReadLogs ⟨"", []⟩ ⟨0, 0, false⟩ 0).1 = .error "unknown container" ∧
      Event.streamClose ∉ (serve (ReadLogsHandler sampleJson sampleDriver [0]) 0
        [some (0, some "broken pipe")]).trace) ∧
    (sampleJson.decodeRead [] = .error "EOF" ∧
      Event.streamClose ∉ (serve (ReadLogsHandler sampleJson sampleDriver []) 0
        [some (0, some "broken pipe")]).trace) :=
  ⟨⟨rfl, rfl,
    ((readLogs_closes_stream_once sampleJson sampleDriver [1] 0
      [some (0, some "broken pipe")]).1 ⟨⟨"c1", []⟩, ⟨0, 0, false⟩⟩
      [⟨[1, 10], none⟩, ⟨[2, 10], some ReadErr.eof⟩] rfl rfl).1⟩,
   ⟨rfl, rfl,
    (readLogs_closes_stream_once sampleJson sampleDriver [0] 0
      [some (0, some "broken pipe")]).2.1 ⟨⟨"", []⟩, ⟨0, 0, false⟩⟩ "unknown container"
      rfl rfl⟩,
   ⟨rfl,
    (readLogs_closes_stream_once sampleJson sampleDriver [] 0
      [some (0, some "broken pipe")]).2.2 "EOF" rfl⟩⟩

/-- C8: in the trace of a ReadLogs exchange that streams (the body decodes and the driver
returns a stream), the event right after every write on the response writer is a flush, so
the flush comes before the next read of the stream, and between any two writes there is a
flush. -/
theorem readLogs_flush_after_every_write {σ : Type} (J : Json) (d : Driver σ) (body : Bytes)
    (req : ReadLogsRequest) (stream : Stream) (drv : σ)
    (conn : List (Option (Nat × GoError)))
    (hdec : J.decodeRead body = .ok req)
    (hok : (d.ReadLogs req.Info req.Config drv).1 = .ok stream) :
    (∀ l₁ l₂ p n err,
      (serve (ReadLogsHandler J d body) drv conn).trace = l₁ ++ Event.write p n err :: l₂ →
      ∃ l₃, l₂ = Event.flush :: l₃) ∧
    (∀ l₁ l₂ l₃ p n err q m err2,
      (serve (ReadLogsHandler J d body) drv conn).trace =
        l₁ ++ Event.write p n err :: (l₂ ++ Event.write q m err2 :: l₃) →
      Event.flush ∈ l₂) := by
  obtain ⟨evs, hs, ht⟩ := readLogs_stream_trace J d body req stream drv conn hdec hok
  have hchain : Chain (fun e rest => ∀ p n err, e = Event.write p n err →
      ∃ l₃, rest = Event.flush :: l₃)
      (serve (ReadLogsHandler J d body) drv conn).trace := by
    rw [ht]
    refine And.intro (by intro p n err h; cases h)
      (And.intro (by intro p n err h; cases h) ?_)
    refine loopShape_chain _ [Event.streamClose] ?_ ?_ ?_ ?_ ?_ evs hs
    · intro d e rest p n err h; cases h
    · intro rest p n err h; cases h
    · intro d rest p n err _; exact ⟨_, rfl⟩
    · intro d n err p n2 err2 _; exact ⟨_, rfl⟩
    · exact ⟨(by intro p n err h; cases h), trivial⟩
  have h1 : ∀ l₁ l₂ p n err,
      (serve (ReadLogsHandler J d body) drv conn).trace = l₁ ++ Event.write p n err :: l₂ →
      ∃ l₃, l₂ = Event.flush :: l₃ :=
    fun l₁ l₂ p n err h => chain_split _ l₁ _ _ l₂ hchain h p n err rfl
  refine ⟨h1, ?_⟩
  intro l₁ l₂ l₃ p n err q m err2 h
  obtain ⟨l₄, h4⟩ := h1 l₁ _ p n err h
  cases l₂ with
  | nil => simp at h4
  | cons a l => simp at h4; simp [h4.1]

/-- Witness of C8: the sample stream for "c1" on an accepting connection; its first write
is followed by a flush, and a flush lies between its two writes. -/
theorem readLogs_flush_after_every_write_witness :
    sampleJson.decodeRead [1] = .ok ⟨⟨"c1", []⟩, ⟨0, 0, false⟩⟩ ∧
    (sampleDriver.ReadLogs ⟨"c1", []⟩ ⟨0, 0, false⟩ 0).1 =
      .ok [⟨[1, 10], none⟩, ⟨[2, 10], some ReadErr.eof⟩] ∧
    (serve (ReadLogsHandler sampleJson sampleDriver [1]) 0 []).trace =
      [Event.readLogs ⟨"c1", []⟩ ⟨0, 0, false⟩,
       Event.setHeader "Content-Type" "application/x-json-stream",
       Event.streamRead [1, 10] none] ++ Event.write [1, 10] 2 none ::
      [Event.flush, Event.streamRead [2, 10] (some ReadErr.eof), Event.write [2, 10] 2 none,
       Event.flush, Event.streamClose] ∧
    (∃ l₃, [Event.flush, Event.streamRead [2, 10] (some ReadErr.eof),
      Event.write [2, 10] 2 none, Event.flush, Event.streamClose] = Event.flush :: l₃) ∧
    Event.flush ∈ [Event.flush, Event.streamRead [2, 10] (some ReadErr.eof)] :=
  ⟨rfl, rfl, rfl,
   (readLogs_flush_after_every_write sampleJson sampleDriver [1]
      ⟨⟨"c1", []⟩, ⟨0, 0, false⟩⟩ [⟨[1, 10], none⟩, ⟨[2, 10], some ReadErr.eof⟩] 0 []
      rfl rfl).1
      [Event.readLogs ⟨"c1", []⟩ ⟨0, 0, false⟩,
       Event.setHeader "Content-Type" "application/x-json-stream",
       Event.streamRead [1, 10] none]
      [Event.flush, Event.streamRead [2, 10] (some ReadErr.eof), Event.write [2, 10] 2 none,
       Event.flush, Event.streamClose] [1, 10] 2 none rfl,
   (readLogs_flush_after_every_write sampleJson sampleDriver [1]
      ⟨⟨"c1", []⟩, ⟨0, 0, false⟩⟩ [⟨[1, 10], none⟩, ⟨[2, 10], some ReadErr.eof⟩] 0 []
      rfl rfl).2
      [Event.readLogs ⟨"c1", []⟩ ⟨0, 0, false⟩,
       Event.setHeader "Content-Type" "application/x-json-stream",
       Event.streamRead [1, 10] none]
      [Event.flush, Event.streamRead [2, 10] (some ReadErr.eof)]
      [Event.flush, Event.streamClose] [1, 10] 2 none [2, 10] 2 none rfl⟩

/-- C9: in the trace of a ReadLogs exchange that streams, a write that fails (it returns an
error, or a count other than the length of the chunk) is followed by exactly two events:
the flush that goes with the write, and the close of the backend stream.  So no read of the
stream and no write come after it, and the stream is closed before the handler returns. -/
theorem readLogs_stops_on_write_failure {σ : Type} (J : Json) (d : Driver σ) (body : Bytes)
    (req : ReadLogsRequest) (stream : Stream) (drv : σ)
    (conn : List (Option (Nat × GoError)))
    (hdec : J.decodeRead body = .ok req)
    (hok : (d.ReadLogs req.Info req.Config drv).1 = .ok stream) :
    ∀ l₁ l₂ p n err,
      (serve (ReadLogsHandler J d body) drv conn).trace = l₁ ++ Event.write p n err :: l₂ →
      (err ≠ none ∨ n ≠ p.length) →
      l₂ = [Event.flush, Event.streamClose] := by
  obtain ⟨evs, hs, ht⟩ := readLogs_stream_trace J d body req stream drv conn hdec hok
  have hchain : Chain (fun e rest => ∀ p n err, e = Event.write p n err →
      (err ≠ none ∨ n ≠ p.length) → rest = [Event.flush, Event.streamClose])
      (serve (ReadLogsHandler J d body) drv conn).trace := by
    rw [ht]
    refine And.intro (by intro p n err h; cases h)
      (And.intro (by intro p n err h; cases h) ?_)
    refine loopShape_chain _ [Event.streamClose] ?_ ?_ ?_ ?_ ?_ evs hs
    · intro d e rest p n err h; cases h
    · intro rest p n err h; cases h
    · intro d rest p n err h hf
      cases h
      rcases hf with hf | hf <;> exact absurd rfl hf
    · intro d n err p n2 err2 _ _; rfl
    · exact ⟨(by intro p n err h; cases h), trivial⟩
  intro l₁ l₂ p n err h hf
  exact chain_split _ l₁ _ _ l₂ hchain h p n err rfl hf

/-- Witness of C9: on the sample stream for "c1" the first write fails with
"broken pipe"; the second chunk is never read. -/
theorem readLogs_stops_on_write_failure_witness :
    sampleJson.decodeRead [1] = .ok ⟨⟨"c1", []⟩, ⟨0, 0, false⟩⟩ ∧
    (sampleDriver.ReadLogs ⟨"c1", []⟩ ⟨0, 0, false⟩ 0).1 =
      .ok [⟨[1, 10], none⟩, ⟨[2, 10], some ReadErr.eof⟩] ∧
    (serve (ReadLogsHandler sampleJson sampleDriver [1]) 0
        [some (0, some "broken pipe")]).trace =
      [Event.readLogs ⟨"c1", []⟩ ⟨0, 0, false⟩,
       Event.setHeader "Content-Type" "application/x-json-stream",
       Event.streamRead [1, 10] none] ++ Event.write [1, 10] 0 (some "broken pipe") ::
      [Event.flush, Event.streamClose] ∧
    [Event.flush, Event.streamClose] = [Event.flush, Event.streamClose] :=
  ⟨rfl, rfl, rfl,
   readLogs_stops_on_write_failure sampleJson sampleDriver [1]
      ⟨⟨"c1", []⟩, ⟨0, 0, false⟩⟩ [⟨[1, 10], none⟩, ⟨[2, 10], some ReadErr.eof⟩] 0
      [some (0, some "broken pipe")] rfl rfl
      [Event.readLogs ⟨"c1", []⟩ ⟨0, 0, false⟩,
       Event.setHeader "Content-Type" "application/x-json-stream",
       Event.streamRead [1, 10] none]
      [Event.flush, Event.streamClose] [1, 10] 0 (some "broken pipe") rfl
      (Or.inl (by decide))⟩

/-! ## The modelled registry -/

/-- A key that `Get` does not find is not among the bound keys. -/
theorem Registry.Get_none_not_mem (k : String) (l : List Session)
    (h : Registry.Get k l = none) : k ∉ l.map Session.key := by
  simp only [Registry.Get, List.find?_eq_none] at h
  intro hm
  obtain ⟨x, hx, hk⟩ := List.mem_map.mp hm
  exact h x hx (by simp [hk])

/-- Every driver call keeps the bound keys distinct. -/
theorem registry_step_nodup {β : Type} (B : Backend β) (T : FailureText)
    (op : DriverOp) (st : RegistryState β) (h : st.keys.Nodup) :
    ((registryDriver B T).step op st).keys.Nodup := by
  cases op with
  | start file info =>
    simp only [Driver.step, registryDriver, Registry.Start]
    rcases hg : Registry.Get file st.sessions with _ | x
    · rcases hb : B.start info st.backend with ⟨_ | hd, b⟩
      · simpa [RegistryState.keys] using h
      · have hnm := Registry.Get_none_not_mem file st.sessions hg
        simp only [RegistryState.keys, List.map_cons, List.nodup_cons]
        exact ⟨hnm, h⟩
    · simpa using h
  | stop file =>
    simp only [Driver.step, registryDriver, Registry.Stop]
    rcases hg : Registry.Get file st.sessions with _ | x
    · simpa using h
    · simp only [RegistryState.keys]
      exact List.Nodup.sublist ((List.filter_sublist _).map _) h
  | read info config =>
    simpa [Driver.step, registryDriver, RegistryState.keys] using h

/-- Any sequence of driver calls keeps the bound keys distinct. -/
theorem registry_run_nodup {β : Type} (B : Backend β) (T : FailureText)
    (ops : List DriverOp) :
    ∀ st : RegistryState β, st.keys.Nodup → ((registryDriver B T).run ops st).keys.Nodup := by
  induction ops with
  | nil => intro st h; exact h
  | cons op rest ih =>
    intro st h
    simp only [Driver.run, List.foldl_cons]
    exact ih _ (registry_step_nodup B T op st h)

/-- A bound key stays bound under every driver call other than its own stop. -/
theorem registry_step_bound {β : Type} (B : Backend β) (T : FailureText)
    (k : String) (op : DriverOp) (st : RegistryState β) (hop : op ≠ DriverOp.stop k)
    (h : (Registry.Get k st.sessions).isSome = true) :
    (Registry.Get k ((registryDriver B T).step op st).sessions).isSome = true := by
  cases op with
  | start file info =>
    simp only [Driver.step, registryDriver, Registry.Start]
    rcases hg : Registry.Get file st.sessions with _ | x
    · rcases hb : B.start info st.backend with ⟨_ | hd, b⟩
      · simpa using h
      · simp only [Registry.Get, List.find?_cons]
        by_cases hk : (file == k) = true
        · simp [hk]
        · simp only [Bool.not_eq_true] at hk
          simpa [hk, Registry.Get] using h
    · simpa using h
  | stop file =>
    have hne : file ≠ k := fun hfk => hop (by rw [hfk])
    simp only [Driver.step, registryDriver, Registry.Stop]
    rcases hg : Registry.Get file st.sessions with _ | x
    · simpa using h
    · simp only [Registry.Get, List.find?_isSome] at h ⊢
      obtain ⟨y, hy, hyk⟩ := h
      refine ⟨y, List.mem_filter.mpr ⟨hy, ?_⟩, hyk⟩
      have : y.key = k := by simpa using hyk
      simp [this, Ne.symm hne]
  | read info config =>
    simpa [Driver.step, registryDriver] using h

/-- A bound key stays bound under any sequence of driver calls that does not stop it. -/
theorem registry_run_bound {β : Type} (B : Backend β) (T : FailureText)
    (k : String) (ops : List DriverOp) (hops : DriverOp.stop k ∉ ops) :
    ∀ st : RegistryState β, (Registry.Get k st.sessions).isSome = true →
      (Registry.Get k ((registryDriver B T).run ops st).sessions).isSome = true := by
  induction ops with
  | nil => intro st h; exact h
  | cons op rest ih =>
    intro st h
    simp only [Driver.run, List.foldl_cons]
    have hop : op ≠ DriverOp.stop k := fun hc => hops (by simp [hc])
    exact ih (fun hc => hops (List.mem_cons_of_mem _ hc)) _
      (registry_step_bound B T k op st hop h)

/-- A start that returns no error leaves its key bound. -/
theorem Registry.Start_ok_bound {β : Type} (B : Backend β) (T : FailureText)
    (k : String) (info : Info) (st : RegistryState β)
    (h : (Registry.Start B T k info st).1 = none) :
    (Registry.Get k (Registry.Start B T k info st).2.sessions).isSome = true := by
  simp only [Registry.Start] at h ⊢
  rcases hg : Registry.Get k st.sessions with _ | x
  · rcases hb : B.start info st.backend with ⟨_ | hd, b⟩
    · simp [hg, hb] at h
    · simp [Registry.Get]
  · simp [hg] at h

/-- A start for a bound key is refused as AlreadyActive and changes nothing. -/
theorem Registry.Start_bound {β : Type} (B : Backend β) (T : FailureText)
    (k : String) (info : Info) (st : RegistryState β)
    (h : (Registry.Get k st.sessions).isSome = true) :
    Registry.Start B T k info st = (some (T.render (SessionStateError.AlreadyActive k)), st) := by
  simp only [Registry.Start]
  rcases hg : Registry.Get k st.sessions with _ | x
  · simp [hg] at h
  · rfl

/-- The exchange of a StartLogging request that decodes with a non-empty container id:
the driver state is the one left by the single driver call, and the envelope encoded
carries the text of the driver error, or the empty string. -/
theorem startLogging_valid_exchange {σ : Type} (J : Json) (d : Driver σ) (body : Bytes)
    (req : StartLoggingRequest) (drv : σ) (conn : List (Option (Nat × GoError)))
    (hdec : J.decodeStart body = .ok req) (hid : req.Info.ContainerID ≠ "") :
    (serve (StartLoggingHandler J d body) drv conn).drv =
      (d.StartLogging req.File req.Info drv).2 ∧
    (serve (StartLoggingHandler J d body) drv conn).respErr =
      some ((d.StartLogging req.File req.Info drv).1.getD "") ∧
    (serve (StartLoggingHandler J d body) drv conn).trace.filter Event.isDriverCall =
      [Event.startLogging req.File req.Info] := by
  have hs : serve (StartLoggingHandler J d body) drv conn =
      { respond J (d.StartLogging req.File req.Info drv).1
          ⟨(d.StartLogging req.File req.Info drv).2, ResponseWriter.new conn,
            [Event.startLogging req.File req.Info]⟩ with
        w := (respond J (d.StartLogging req.File req.Info drv).1
          ⟨(d.StartLogging req.File req.Info drv).2, ResponseWriter.new conn,
            [Event.startLogging req.File req.Info]⟩).w.finishRequest } := by
    simp [serve, StartLoggingHandler, hdec, hid, World.emit, World.init]
  obtain ⟨h1, ⟨n, e, h2⟩, _, _⟩ := respond_fresh J (d.StartLogging req.File req.Info drv).1
    [Event.startLogging req.File req.Info] conn (d.StartLogging req.File req.Info drv).2
  rw [hs]
  refine ⟨h1, ?_, ?_⟩
  · simp [World.respErr, h2, List.findSome?_cons]
  · simp [h2, Event.isDriverCall]

/-- A key that `Get` finds is among the bound keys. -/
theorem Registry.Get_isSome_mem (k : String) (l : List Session)
    (h : (Registry.Get k l).isSome = true) : k ∈ l.map Session.key := by
  simp only [Registry.Get, List.find?_isSome] at h
  obtain ⟨x, hx, hk⟩ := h
  exact List.mem_map.mpr ⟨x, hx, by simpa using hk⟩

/-- A start for an unbound key that the backend accepts returns no error and installs the
session with the handle the backend gave. -/
theorem Registry.Start_unbound_accepted {β : Type} (B : Backend β) (T : FailureText)
    (k : String) (info : Info) (st : RegistryState β) (h : Nat)
    (hg : Registry.Get k st.sessions = none)
    (hacc : (B.start info st.backend).1 = .ok h) :
    Registry.Start B T k info st =
      (none, ⟨⟨k, info, h⟩ :: st.sessions, (B.start info st.backend).2⟩) := by
  simp only [Registry.Start, hg]
  rcases hb : B.start info st.backend with ⟨r, b⟩
  rw [hb] at hacc
  simp only at hacc
  subst hacc
  rfl

/-- C10 (as amended): on the modelled registry, from any history of driver calls on the
empty registry, the bound keys are distinct at every stage (at most one session per key at
any time).  If key `k` is unbound and the backend accepts the start, then of two
StartLogging exchanges for `k` with a valid context, with any driver calls other than a
stop of `k` in between, exactly one succeeds: the first is answered with `Err` empty and
installs the session for `k`; the second calls the driver once, is answered with the
AlreadyActive text, which is not empty, leaves the registry as it was, and `k` is bound
exactly once afterwards. -/
theorem registry_second_start_already_active {β : Type} (B : Backend β)
    (T : FailureText) (J : Json) (history mid : List DriverOp) (b₀ : β)
    (k : String) (body₁ body₂ : Bytes) (req₁ req₂ : StartLoggingRequest)
    (conn₁ conn₂ : List (Option (Nat × GoError)))
    (hdec₁ : J.decodeStart body₁ = .ok req₁) (hdec₂ : J.decodeStart body₂ = .ok req₂)
    (hk₁ : req₁.File = k) (hk₂ : req₂.File = k)
    (hid₁ : req₁.Info.ContainerID ≠ "") (hid₂ : req₂.Info.ContainerID ≠ "")
    (hmid : DriverOp.stop k ∉ mid) :
    let D := registryDriver B T
    let st := D.run history ⟨[], b₀⟩
    let s₁ := serve (StartLoggingHandler J D body₁) st conn₁
    let st₁ := D.run mid s₁.drv
    let s₂ := serve (StartLoggingHandler J D body₂) st₁ conn₂
    (st.keys.Nodup ∧ s₁.drv.keys.Nodup ∧ st₁.keys.Nodup ∧ s₂.drv.keys.Nodup) ∧
    (Registry.Get k st.sessions = none →
      ∀ h, (B.start req₁.Info st.backend).1 = .ok h →
        s₁.respErr = some "" ∧
        s₁.trace.filter Event.isDriverCall = [Event.startLogging k req₁.Info] ∧
        s₁.drv.sessions = ⟨k, req₁.Info, h⟩ :: st.sessions ∧
        s₂.respErr = some (T.render (SessionStateError.AlreadyActive k)) ∧
        s₂.respErr ≠ some "" ∧
        s₂.trace.filter Event.isDriverCall = [Event.startLogging k req₂.Info] ∧
        s₂.drv = st₁ ∧
        s₂.drv.keys.count k = 1) := by
  intro D st s₁ st₁ s₂
  obtain ⟨hd₁, he₁, ht₁⟩ := startLogging_valid_exchange J D body₁ req₁ st conn₁ hdec₁ hid₁
  obtain ⟨hd₂, he₂, ht₂⟩ := startLogging_valid_exchange J D body₂ req₂ st₁ conn₂ hdec₂ hid₂
  rw [hk₁] at hd₁ he₁ ht₁
  rw [hk₂] at hd₂ he₂ ht₂
  have hst : st.keys.Nodup :=
    registry_run_nodup B T history ⟨[], b₀⟩ (by simp [RegistryState.keys])
  have hs₁ : s₁.drv.keys.Nodup := by
    show (serve (StartLoggingHandler J D body₁) st conn₁).drv.keys.Nodup
    rw [hd₁]
    exact registry_step_nodup B T (DriverOp.start k req₁.Info) st hst
  have hst₁ : st₁.keys.Nodup := registry_run_nodup B T mid _ hs₁
  have hs₂ : s₂.drv.keys.Nodup := by
    show (serve (StartLoggingHandler J D body₂) st₁ conn₂).drv.keys.Nodup
    rw [hd₂]
    exact registry_step_nodup B T (DriverOp.start k req₂.Info) st₁ hst₁
  refine ⟨⟨hst, hs₁, hst₁, hs₂⟩, ?_⟩
  intro hunb h hacc
  have hfirst : D.StartLogging k req₁.Info st =
      (none, ⟨⟨k, req₁.Info, h⟩ :: st.sessions, (B.start req₁.Info st.backend).2⟩) :=
    Registry.Start_unbound_accepted B T k req₁.Info st h hunb hacc
  have hb₁ : (Registry.Get k s₁.drv.sessions).isSome = true := by
    show (Registry.Get k (serve (StartLoggingHandler J D body₁) st conn₁).drv.sessions).isSome
      = true
    rw [hd₁]
    exact Registry.Start_ok_bound B T k req₁.Info st (by
      show (D.StartLogging k req₁.Info st).1 = none
      rw [hfirst])
  have hbmid : (Registry.Get k st₁.sessions).isSome = true :=
    registry_run_bound B T k mid hmid _ hb₁
  have hsecond : D.StartLogging k req₂.Info st₁ =
      (some (T.render (SessionStateError.AlreadyActive k)), st₁) :=
    Registry.Start_bound B T k req₂.Info st₁ hbmid
  have hr₂ : s₂.respErr = some (T.render (SessionStateError.AlreadyActive k)) := by
    show (serve (StartLoggingHandler J D body₂) st₁ conn₂).respErr = _
    rw [he₂, hsecond]; rfl
  have hdrv₂ : s₂.drv = st₁ := by
    show (serve (StartLoggingHandler J D body₂) st₁ conn₂).drv = st₁
    rw [hd₂, hsecond]
  refine ⟨?_, ht₁, ?_, hr₂, ?_, ht₂, hdrv₂, ?_⟩
  · show (serve (StartLoggingHandler J D body₁) st conn₁).respErr = some ""
    rw [he₁, hfirst]; rfl
  · show (serve (StartLoggingHandler J D body₁) st conn₁).drv.sessions = _
    rw [hd₁, hfirst]
  · intro hc
    rw [hr₂] at hc
    exact T.nonempty _ (Option.some.inj hc)
  · rw [hdrv₂]
    exact List.count_eq_one_of_mem hst₁ (Registry.Get_isSome_mem k _ hbmid)

/-- Witness of C10 (as amended): on the working sample backend, key "fifo1" is unbound in
the empty registry and its start is accepted with handle 0; another key is started and
logs are read, then "fifo1" is started again and refused as AlreadyActive. -/
theorem registry_second_start_already_active_witness :
    sampleJson.decodeStart [1] = .ok ⟨"fifo1", ⟨"c1", []⟩⟩ ∧
    DriverOp.stop "fifo1" ∉
      [DriverOp.start "fifo2" ⟨"c2", []⟩, DriverOp.read ⟨"c1", []⟩ ⟨0, 0, false⟩] ∧
    Registry.Get "fifo1"
      ((registryDriver countingBackend sampleText).run [] ⟨[], 0⟩).sessions = none ∧
    (countingBackend.start ⟨"c1", []⟩
      ((registryDriver countingBackend sampleText).run [] ⟨[], 0⟩).backend).1 = .ok 0 ∧
    (serve (StartLoggingHandler sampleJson (registryDriver countingBackend sampleText) [1])
      ((registryDriver countingBackend sampleText).run [] ⟨[], 0⟩) []).respErr = some "" ∧
    (serve (StartLoggingHandler sampleJson (registryDriver countingBackend sampleText) [1])
      ((registryDriver countingBackend sampleText).run
        [DriverOp.start "fifo2" ⟨"c2", []⟩, DriverOp.read ⟨"c1", []⟩ ⟨0, 0, false⟩]
        (serve (StartLoggingHandler sampleJson (registryDriver countingBackend sampleText)
          [1]) ((registryDriver countingBackend sampleText).run [] ⟨[], 0⟩) []).drv)
      []).respErr = some (sampleText.render (SessionStateError.AlreadyActive "fifo1")) :=
  ⟨rfl, by decide, rfl, rfl,
   ((registry_second_start_already_active countingBackend sampleText sampleJson []
      [DriverOp.start "fifo2" ⟨"c2", []⟩, DriverOp.read ⟨"c1", []⟩ ⟨0, 0, false⟩] 0 "fifo1"
      [1] [1] ⟨"fifo1", ⟨"c1", []⟩⟩ ⟨"fifo1", ⟨"c1", []⟩⟩ [] [] rfl rfl rfl rfl
      (by decide) (by decide) (by decide)).2 rfl 0 rfl).1,
   ((registry_second_start_already_active countingBackend sampleText sampleJson []
      [DriverOp.start "fifo2" ⟨"c2", []⟩, DriverOp.read ⟨"c1", []⟩ ⟨0, 0, false⟩] 0 "fifo1"
      [1] [1] ⟨"fifo1", ⟨"c1", []⟩⟩ ⟨"fifo1", ⟨"c1", []⟩⟩ [] [] rfl rfl rfl rfl
      (by decide) (by decide) (by decide)).2 rfl 0 rfl).2.2.2.1⟩

/-- Counterexample to C10 as stated: on the modelled registry with a backend that is down,
two StartLogging exchanges for key "fifo1" with a valid context and nothing in between are
both answered with the backend error; neither is a success (`Err` is empty in neither) and
neither is AlreadyActive, and no session is installed.  And on the working sample backend,
once "fifo1" is bound by an earlier start, two further StartLogging exchanges for it are both
answered AlreadyActive: again no success. -/
theorem start_twice_backend_down :
    sampleJson.decodeStart [1] = .ok ⟨"fifo1", ⟨"c1", []⟩⟩ ∧
    (serve (StartLoggingHandler sampleJson (registryDriver downBackend sampleText) [1])
      ⟨[], ()⟩ []).respErr = some "backend down" ∧
    (serve (StartLoggingHandler sampleJson (registryDriver downBackend sampleText) [1])
      (serve (StartLoggingHandler sampleJson (registryDriver downBackend sampleText) [1])
        ⟨[], ()⟩ []).drv []).respErr = some "backend down" ∧
    (serve (StartLoggingHandler sampleJson (registryDriver downBackend sampleText) [1])
      (serve (StartLoggingHandler sampleJson (registryDriver downBackend sampleText) [1])
        ⟨[], ()⟩ []).drv []).drv.sessions = [] ∧
    ¬ ((serve (StartLoggingHandler sampleJson (registryDriver downBackend sampleText) [1])
        ⟨[], ()⟩ []).respErr = some "" ∨
       (serve (StartLoggingHandler sampleJson (registryDriver downBackend sampleText) [1])
        (serve (StartLoggingHandler sampleJson (registryDriver downBackend sampleText) [1])
          ⟨[], ()⟩ []).drv []).respErr = some "") ∧
    "backend down" ≠ sampleText.render (SessionStateError.AlreadyActive "fifo1") ∧
    (serve (StartLoggingHandler sampleJson (registryDriver countingBackend sampleText) [1])
      ((registryDriver countingBackend sampleText).run
        [DriverOp.start "fifo1" ⟨"c1", []⟩] ⟨[], 0⟩) []).respErr = some "AlreadyActive" ∧
    (serve (StartLoggingHandler sampleJson (registryDriver countingBackend sampleText) [1])
      (serve (StartLoggingHandler sampleJson (registryDriver countingBackend sampleText) [1])
        ((registryDriver countingBackend sampleText).run
          [DriverOp.start "fifo1" ⟨"c1", []⟩] ⟨[], 0⟩) []).drv []).respErr =
      some "AlreadyActive" := by
  refine ⟨rfl, rfl, rfl, rfl, ?_, by decide, rfl, rfl⟩
  have h1 : (serve (StartLoggingHandler sampleJson (registryDriver downBackend sampleText)
      [1]) ⟨[], ()⟩ []).respErr = some "backend down" := rfl
  have h2 : (serve (StartLoggingHandler sampleJson (registryDriver downBackend sampleText)
      [1]) (serve (StartLoggingHandler sampleJson (registryDriver downBackend sampleText)
        [1]) ⟨[], ()⟩ []).drv []).respErr = some "backend down" := rfl
  rw [h1, h2]
  decide

end LogPlugin
